import Mathlib

/-!
MAX31865 RTD driver (eoncli/max31865)

A shallow embedding of `src/max31865.c` and `inc/max31865.h`.

* The platform calls the driver makes (`gpio_mode`, `gpio_set`, `gpio_reset`,
  `spi_write8`, `delay`) come from the board support library and are modelled
  as events appended to a trace; the byte the chip shifts out during a transfer
  is an arbitrary function of the history of events so far.
* `uint8_t` and `uint16_t` values are natural numbers, truncated with
  `% 256` and `% 65536` where the C code stores into such a variable.
* The arithmetic of `max31865_temperature` is written over an arbitrary
  linearly ordered field with the square root passed in, and is read over the
  reals (with `Real.sqrt`) in the theorems.
-/

namespace Max31865

/-! ## Platform model -/

/-- One call into the board support library, as seen from outside the driver. -/
inductive Event where
  | gpio_mode
  | gpio_set
  | gpio_reset
  | spi_write8 (out : Nat)
  | delay (n : Nat)
  deriving DecidableEq, Repr

/-- The world behind a `max31865_t` handle: the chip, given by the byte it
answers to the last transfer of a history of events, and the events so far. -/
structure Bus where
  miso : List Event → Nat
  trace : List Event

/-- Append one event to the trace. -/
def Bus.emit (m : Bus) (e : Event) : Bus :=
  { m with trace := m.trace ++ [e] }

/-- Platform `gpio_mode(m->cs, OUTPUT_PP, NOPULL, SPEED_HIGH)`. -/
def gpio_mode (m : Bus) : Bus := m.emit .gpio_mode

/-- Platform `gpio_set(m->cs)`: chip select high. -/
def gpio_set (m : Bus) : Bus := m.emit .gpio_set

/-- Platform `gpio_reset(m->cs)`: chip select low. -/
def gpio_reset (m : Bus) : Bus := m.emit .gpio_reset

/-- Platform `delay(n)`. -/
def delay (m : Bus) (n : Nat) : Bus := m.emit (.delay n)

/-- Platform `spi_write8(m->SPIx, out)`: a full-duplex exchange of one byte.
The result is the byte the chip answers, as a `uint8_t`. -/
def spi_write8 (m : Bus) (out : Nat) : Nat × Bus :=
  let m := m.emit (.spi_write8 out)
  (m.miso m.trace % 256, m)

/-- Macro `SELECT()`. -/
def SELECT (m : Bus) : Bus := gpio_reset m

/-- Macro `DESELECT()`. -/
def DESELECT (m : Bus) : Bus := gpio_set m

/-! ## Constants of `max31865.c` and `max31865.h` -/

def MAX31856_CONFIG_REG : Nat := 0x00
def MAX31856_CONFIG_BIAS : Nat := 0x80
def MAX31856_CONFIG_MODEAUTO : Nat := 0x40
def MAX31856_CONFIG_1SHOT : Nat := 0x20
def MAX31856_CONFIG_3WIRE : Nat := 0x10
def MAX31856_CONFIG_FAULTSTAT : Nat := 0x02
def MAX31856_RTDMSB_REG : Nat := 0x01
def MAX31856_FAULTSTAT_REG : Nat := 0x07

/-- The enumeration `max31865_numwires_t`, by its integer values. -/
abbrev max31865_numwires_t := Nat

def MAX31865_2WIRE : max31865_numwires_t := 0
def MAX31865_3WIRE : max31865_numwires_t := 1
def MAX31865_4WIRE : max31865_numwires_t := 0

/-- C `~x` on a 32-bit `int`, as the bit pattern of the result. -/
def bitNot32 (x : Nat) : Nat := 0xFFFFFFFF ^^^ x

/-- Store into a `uint8_t`. -/
def u8 (x : Nat) : Nat := x % 256

/-- Store into a `uint16_t`. -/
def u16 (x : Nat) : Nat := x % 65536

/-! ## Private functions -/

def max31865_write (m : Bus) (address data : Nat) : Bus :=
  let m := SELECT m
  let m := (spi_write8 m (u8 (address ||| 0x80))).2
  let m := (spi_write8 m data).2
  DESELECT m

def max31865_read (m : Bus) (address : Nat) : Nat × Bus :=
  let m := SELECT m
  let m := (spi_write8 m (u8 (address &&& 0x7F))).2
  let (value, m) := spi_write8 m 0xFF
  let m := DESELECT m
  (value, m)

def max31865_read16 (m : Bus) (address : Nat) : Nat × Bus :=
  let m := SELECT m
  let m := (spi_write8 m (u8 (address &&& 0x7F))).2
  let (val1, m) := spi_write8 m 0xFF
  let (val2, m) := spi_write8 m 0xFF
  let m := DESELECT m
  let value := val1
  let value := u16 (value <<< 8)
  let value := u16 (value ||| val2)
  (value, m)

/-! ## Public functions -/

def max31865_deselect (m : Bus) : Bus :=
  let m := gpio_mode m
  DESELECT m

def max31865_setWires (m : Bus) (wires : max31865_numwires_t) : Bus :=
  let (t, m) := max31865_read m MAX31856_CONFIG_REG
  let t := if wires = MAX31865_3WIRE then u8 (t ||| MAX31856_CONFIG_3WIRE)
           else u8 (t &&& bitNot32 MAX31856_CONFIG_3WIRE)
  max31865_write m MAX31856_CONFIG_REG t

def max31865_readFault (m : Bus) : Nat × Bus :=
  max31865_read m MAX31856_FAULTSTAT_REG

def max31865_clearFault (m : Bus) : Bus :=
  let (t, m) := max31865_read m MAX31856_CONFIG_REG
  let t := u8 (t &&& bitNot32 0x2C)
  let t := u8 (t ||| MAX31856_CONFIG_FAULTSTAT)
  max31865_write m MAX31856_CONFIG_REG t

def max31865_autoConvert (m : Bus) (b : Bool) : Bus :=
  let (t, m) := max31865_read m MAX31856_CONFIG_REG
  let t := if b then u8 (t ||| MAX31856_CONFIG_MODEAUTO)
           else u8 (t &&& bitNot32 MAX31856_CONFIG_MODEAUTO)
  max31865_write m MAX31856_CONFIG_REG t

def max31865_enableBias (m : Bus) (b : Bool) : Bus :=
  let (t, m) := max31865_read m MAX31856_CONFIG_REG
  let t := if b then u8 (t ||| MAX31856_CONFIG_BIAS)
           else u8 (t &&& bitNot32 MAX31856_CONFIG_BIAS)
  max31865_write m MAX31856_CONFIG_REG t

def max31865_init (m : Bus) (wires : max31865_numwires_t) : Bool × Bus :=
  let m := gpio_mode m
  let m := DESELECT m
  let m := max31865_write m MAX31856_CONFIG_REG 0x00
  let m := delay m 100
  let m := max31865_setWires m wires
  let m := max31865_enableBias m false
  let m := max31865_autoConvert m false
  let m := max31865_clearFault m
  (true, m)

def max31865_readRTD (m : Bus) : Nat × Bus :=
  let m := max31865_clearFault m
  let m := max31865_enableBias m true
  let m := delay m 10
  let (t, m) := max31865_read m MAX31856_CONFIG_REG
  let t := u8 (t ||| MAX31856_CONFIG_1SHOT)
  let m := max31865_write m MAX31856_CONFIG_REG t
  let m := delay m 65
  let (rtd, m) := max31865_read16 m MAX31856_RTDMSB_REG
  -- remove fault
  let rtd := u16 (rtd >>> 1)
  (rtd, m)

/-! ## `max31865_temperature` -/

section Temperature

variable {α : Type} [LinearOrderedField α]

def RTD_A : α := 3.9083e-3
def RTD_B : α := -5.775e-7

/-- Lines 174-176: the resistance `Rt` from the raw code. -/
def temperature_Rt (rtd : Nat) (refResistor : α) : α :=
  let Rt : α := (rtd : α)
  let Rt := Rt / 32768
  let Rt := Rt * refResistor
  Rt

/-- Lines 178-184: the candidate temperature of the quadratic formula. -/
def temperature_quadratic (sqrt : α → α) (Rt RTDNominal : α) : α :=
  let Z1 : α := -RTD_A
  let Z2 : α := RTD_A * RTD_A - (4 * RTD_B)
  let Z3 : α := (4 * RTD_B) / RTDNominal
  let Z4 : α := 2 * RTD_B
  let temp := Z2 + (Z3 * Rt)
  let temp := (sqrt temp + Z1) / Z4
  temp

/-- Lines 189-203: the degree-5 polynomial, in the resistance normalised to
100 ohm. -/
def temperature_poly (Rt RTDNominal : α) : α :=
  let Rt := Rt / RTDNominal
  let Rt := Rt * 100
  let rpoly := Rt
  let temp : α := -242.02
  let temp := temp + 2.2228 * rpoly
  let rpoly := rpoly * Rt
  let temp := temp + 2.5859e-3 * rpoly
  let rpoly := rpoly * Rt
  let temp := temp - 4.8260e-6 * rpoly
  let rpoly := rpoly * Rt
  let temp := temp - 2.8183e-8 * rpoly
  let rpoly := rpoly * Rt
  let temp := temp + 1.5243e-10 * rpoly
  temp

/-- Lines 178-205: from the resistance `Rt` to the temperature returned. -/
def temperature_of_Rt (sqrt : α → α) (Rt RTDNominal : α) : α :=
  let temp := temperature_quadratic sqrt Rt RTDNominal
  if temp ≥ 0 then temp
  else temperature_poly Rt RTDNominal

/-- Lines 174-205 with the raw code given. -/
def temperature_of_rtd (sqrt : α → α) (rtd : Nat) (RTDNominal refResistor : α) : α :=
  temperature_of_Rt sqrt (temperature_Rt rtd refResistor) RTDNominal

def max31865_temperature (sqrt : α → α) (m : Bus) (RTDNominal refResistor : α) : α × Bus :=
  let (rtd, m) := max31865_readRTD m
  (temperature_of_rtd sqrt rtd RTDNominal refResistor, m)

end Temperature

/-! ## Vocabulary for traces of the configuration register -/

/-- The events of a read of the configuration register, as the driver issues it. -/
def cfgReadEvents : List Event :=
  [.gpio_reset, .spi_write8 0x00, .spi_write8 0xFF, .gpio_set]

/-- The events of a write of the byte `w` to the configuration register. -/
def cfgWriteEvents (w : Nat) : List Event :=
  [.gpio_reset, .spi_write8 0x80, .spi_write8 w, .gpio_set]

/-- The byte the chip `miso` answers to a read of the configuration register
issued after the history `hist`. -/
def cfgReadByte (miso : List Event → Nat) (hist : List Event) : Nat :=
  miso (hist ++ [.gpio_reset, .spi_write8 0x00, .spi_write8 0xFF]) % 256


/-- Whether the byte `w` written to the configuration register is one of the
driver's modifications of the byte `t` read before it: the 3-wire bit set or
cleared, the auto-convert bit set or cleared, the bias bit set or cleared, the
one-shot bit set, or the fault clear `(t AND NOT 0x2C) OR 0x02`. -/
def cfgBasis (t w : Nat) : Bool :=
  decide (w = t ||| 0x10 ∨ w = t &&& 0xEF ∨ w = t ||| 0x40 ∨ w = t &&& 0xBF ∨
    w = t ||| 0x80 ∨ w = t &&& 0x7F ∨ w = t ||| 0x20 ∨ w = (t &&& 0xD3) ||| 0x02)

/-- Read-before-write check of a list of events that follows the history
`hist` on the chip `miso`: every write transaction to register 0x00 (first byte
0x80) comes immediately after a read transaction of register 0x00 (first byte
0x00), and writes a byte that is a modification of the byte that read
returned. `fresh` is the byte of the read transaction just before, if there
is one. -/
def cfgWritesFresh (miso : List Event → Nat) :
    List Event → Option Nat → List Event → Bool
  | _, _, [] => true
  | hist, fresh, .gpio_reset :: .spi_write8 a :: .spi_write8 d :: .gpio_set :: rest =>
    if a = 0x00 then
      cfgWritesFresh miso (hist ++ [.gpio_reset, .spi_write8 a, .spi_write8 d, .gpio_set])
        (some (miso (hist ++ [.gpio_reset, .spi_write8 a, .spi_write8 d]) % 256)) rest
    else if a = 0x80 then
      (match fresh with
        | some t => cfgBasis t d
        | none => false) &&
      cfgWritesFresh miso (hist ++ [.gpio_reset, .spi_write8 a, .spi_write8 d, .gpio_set])
        none rest
    else
      cfgWritesFresh miso (hist ++ [.gpio_reset, .spi_write8 a, .spi_write8 d, .gpio_set])
        none rest
  | hist, _, e :: rest => cfgWritesFresh miso (hist ++ [e]) none rest


/-! ## A chip that keeps its configuration register -/

/-- Where the chip stands in a transaction: chip select high; chip select low
and the address byte awaited; or the register the next byte is read from or
written to. -/
inductive ChipPhase where
  | idle
  | command
  | reading (addr : Nat)
  | writing (addr : Nat)
  deriving DecidableEq, Repr

/-- The chip model of the claims about register contents: the content of the
configuration register (address 0x00) and the phase of the transaction. -/
structure Chip where
  cfg : Nat
  phase : ChipPhase

/-- One event seen by the chip. A transaction starts when chip select goes low;
its first byte is the address, with bit 7 set for a write; the bytes after it
are read from or written to consecutive registers; a byte written to register
0x00 replaces the configuration. -/
def Chip.step (c : Chip) : Event → Chip
  | .gpio_set => { c with phase := .idle }
  | .gpio_reset => { c with phase := .command }
  | .spi_write8 out =>
    match c.phase with
    | .idle => c
    | .command =>
      if out &&& 0x80 = 0 then { c with phase := .reading (out &&& 0x7F) }
      else { c with phase := .writing (out &&& 0x7F) }
    | .reading a => { c with phase := .reading (a + 1) }
    | .writing a => { cfg := if a = 0 then out else c.cfg, phase := .writing (a + 1) }
  | .gpio_mode => c
  | .delay _ => c

/-- The chip after a history of events. -/
def Chip.run (c : Chip) (hist : List Event) : Chip :=
  hist.foldl Chip.step c

/-- The byte the chip answers to the last transfer of a history: the
configuration register when that transfer reads register 0x00, and `other` of
the history in every other case. -/
def Chip.miso (c : Chip) (other : List Event → Nat) (hist : List Event) : Nat :=
  match (c.run hist.dropLast).phase, hist.getLast? with
  | .reading 0, some (.spi_write8 _) => (c.run hist.dropLast).cfg
  | _, _ => other hist


/-! ## Bit-level lemmas -/

theorem u8_lt (x : Nat) : u8 x < 256 := Nat.mod_lt _ (by norm_num)

theorem spi_write8_lt (m : Bus) (out : Nat) : (spi_write8 m out).1 < 256 :=
  Nat.mod_lt _ (by norm_num)

theorem max31865_read_lt (m : Bus) (address : Nat) : (max31865_read m address).1 < 256 :=
  Nat.mod_lt _ (by norm_num)

/-- A byte whose eight low bits are given by `f`, and `f` is false above. -/
theorem testBit_of_byte {w : Nat} (hw : w < 256) (f : Nat → Bool)
    (hlo : ∀ i, i < 8 → w.testBit i = f i) (hhi : ∀ i, 8 ≤ i → f i = false) :
    ∀ i, w.testBit i = f i := by
  intro i
  rcases Nat.lt_or_ge i 8 with h | h
  · exact hlo i h
  · rw [hhi i h]
    apply Nat.testBit_lt_two_pow
    calc w < 2 ^ 8 := hw
      _ ≤ 2 ^ i := Nat.pow_le_pow_right (by norm_num) h

theorem byte_testBit_high {t : Nat} (ht : t < 256) {i : Nat} (h : 8 ≤ i) :
    t.testBit i = false := by
  apply Nat.testBit_lt_two_pow
  calc t < 2 ^ 8 := ht
    _ ≤ 2 ^ i := Nat.pow_le_pow_right (by norm_num) h

set_option maxRecDepth 100000 in
theorem setBit_table : ∀ k, k < 8 → ∀ t, t < 256 → ∀ i, i < 8 →
    (u8 (t ||| 2 ^ k)).testBit i = (if i = k then true else t.testBit i) := by
  decide

set_option maxRecDepth 100000 in
theorem clearBit_table : ∀ k, k < 8 → ∀ t, t < 256 → ∀ i, i < 8 →
    (u8 (t &&& bitNot32 (2 ^ k))).testBit i = (if i = k then false else t.testBit i) := by
  decide

set_option maxRecDepth 100000 in
theorem clearFault_table : ∀ t, t < 256 →
    u8 (u8 (t &&& bitNot32 0x2C) ||| 0x02) = (t &&& (0xFF ^^^ 0x2C)) ||| 0x02 ∧
    ∀ i, i < 8 → (u8 (u8 (t &&& bitNot32 0x2C) ||| 0x02)).testBit i =
      (if i = 5 ∨ i = 3 ∨ i = 2 then false else if i = 1 then true else t.testBit i) := by
  decide

/-- Setting bit `k` of a byte: the stored result has bit `k` set and the other
bits of `t`. -/
theorem u8_setBit {t : Nat} (ht : t < 256) {k : Nat} (hk : k < 8) :
    ∀ i, (u8 (t ||| 2 ^ k)).testBit i = (if i = k then true else t.testBit i) := by
  apply testBit_of_byte (u8_lt _)
  · intro i hi
    exact setBit_table k hk t ht i hi
  · intro i hi
    have : i ≠ k := by omega
    simp [this, byte_testBit_high ht hi]

/-- Clearing bit `k` of a byte with `t &= ~mask`: the stored result has bit `k`
clear and the other bits of `t`. -/
theorem u8_clearBit {t : Nat} (ht : t < 256) {k : Nat} (hk : k < 8) :
    ∀ i, (u8 (t &&& bitNot32 (2 ^ k))).testBit i = (if i = k then false else t.testBit i) := by
  apply testBit_of_byte (u8_lt _)
  · intro i hi
    exact clearBit_table k hk t ht i hi
  · intro i hi
    have : i ≠ k := by omega
    simp [this, byte_testBit_high ht hi]

/-- The events of `max31865_read`. -/
theorem max31865_read_trace (m : Bus) (address : Nat) :
    (max31865_read m address).2.trace =
      m.trace ++ [.gpio_reset, .spi_write8 (u8 (address &&& 0x7F)), .spi_write8 0xFF,
        .gpio_set] := by
  simp [max31865_read, SELECT, DESELECT, gpio_reset, gpio_set, spi_write8, Bus.emit]

/-- The events of `max31865_write`. -/
theorem max31865_write_trace (m : Bus) (address data : Nat) :
    (max31865_write m address data).trace =
      m.trace ++ [.gpio_reset, .spi_write8 (u8 (address ||| 0x80)), .spi_write8 data,
        .gpio_set] := by
  simp [max31865_write, SELECT, DESELECT, gpio_reset, gpio_set, spi_write8, Bus.emit]

/-! ## Configuration register: single-bit read-modify-write -/

/-- C1: `max31865_setWires` reads register 0x00, and for the byte `t` that read
returns it writes to register 0x00 (first bus byte 0x80) a byte `w`: with
`MAX31865_3WIRE`, bit 4 of `w` is set and every other bit is that of `t`; with
`MAX31865_2WIRE` or `MAX31865_4WIRE`, bit 4 of `w` is clear and every other bit
is that of `t`. -/
theorem max31865_setWires_bit4 (m : Bus) :
    (∃ w, (max31865_setWires m MAX31865_3WIRE).trace =
        (max31865_read m MAX31856_CONFIG_REG).2.trace ++
          [.gpio_reset, .spi_write8 0x80, .spi_write8 w, .gpio_set] ∧
      ∀ i, w.testBit i =
        (if i = 4 then true else ((max31865_read m MAX31856_CONFIG_REG).1).testBit i)) ∧
    (∃ w, (max31865_setWires m MAX31865_2WIRE).trace =
        (max31865_read m MAX31856_CONFIG_REG).2.trace ++
          [.gpio_reset, .spi_write8 0x80, .spi_write8 w, .gpio_set] ∧
      ∀ i, w.testBit i =
        (if i = 4 then false else ((max31865_read m MAX31856_CONFIG_REG).1).testBit i)) ∧
    (∃ w, (max31865_setWires m MAX31865_4WIRE).trace =
        (max31865_read m MAX31856_CONFIG_REG).2.trace ++
          [.gpio_reset, .spi_write8 0x80, .spi_write8 w, .gpio_set] ∧
      ∀ i, w.testBit i =
        (if i = 4 then false else ((max31865_read m MAX31856_CONFIG_REG).1).testBit i)) := by
  have ht := max31865_read_lt m MAX31856_CONFIG_REG
  refine ⟨⟨_, ?_, u8_setBit ht (by norm_num : 4 < 8)⟩,
    ⟨_, ?_, u8_clearBit ht (by norm_num : 4 < 8)⟩,
    ⟨_, ?_, u8_clearBit ht (by norm_num : 4 < 8)⟩⟩
  · simp only [max31865_setWires, max31865_write_trace]
    simp [MAX31865_3WIRE, MAX31856_CONFIG_3WIRE, MAX31856_CONFIG_REG, u8]
  · simp only [max31865_setWires, max31865_write_trace]
    simp [MAX31865_3WIRE, MAX31865_2WIRE, MAX31856_CONFIG_3WIRE, MAX31856_CONFIG_REG, u8]
  · simp only [max31865_setWires, max31865_write_trace]
    simp [MAX31865_3WIRE, MAX31865_4WIRE, MAX31856_CONFIG_3WIRE, MAX31856_CONFIG_REG, u8]

/-- C9: `max31865_clearFault` reads register 0x00, and for the byte `t` that
read returns it writes to register 0x00 the byte `(t AND NOT 0x2C) OR 0x02`:
bits 5, 3 and 2 are clear, bit 1 is set, and bits 7, 6, 4 and 0 are those of
`t`. -/
theorem max31865_clearFault_byte (m : Bus) :
    ∃ w, (max31865_clearFault m).trace =
        (max31865_read m MAX31856_CONFIG_REG).2.trace ++
          [.gpio_reset, .spi_write8 0x80, .spi_write8 w, .gpio_set] ∧
      w = ((max31865_read m MAX31856_CONFIG_REG).1 &&& (0xFF ^^^ 0x2C)) ||| 0x02 ∧
      ∀ i, w.testBit i =
        (if i = 5 ∨ i = 3 ∨ i = 2 then false
         else if i = 1 then true
         else ((max31865_read m MAX31856_CONFIG_REG).1).testBit i) := by
  have ht := max31865_read_lt m MAX31856_CONFIG_REG
  refine ⟨u8 (u8 ((max31865_read m MAX31856_CONFIG_REG).1 &&& bitNot32 0x2C) ||| 0x02),
    ?_, (clearFault_table _ ht).1, ?_⟩
  · simp only [max31865_clearFault, max31865_write_trace]
    simp [MAX31856_CONFIG_FAULTSTAT, MAX31856_CONFIG_REG, u8]
  · apply testBit_of_byte (u8_lt _)
    · intro i hi
      exact (clearFault_table _ ht).2 i hi
    · intro i hi
      have h5 : ¬ (i = 5 ∨ i = 3 ∨ i = 2) := by omega
      have h1 : i ≠ 1 := by omega
      simp [h5, h1, byte_testBit_high ht hi]

/-- C10: `max31865_autoConvert b` and `max31865_enableBias b` each read
register 0x00 and, for the byte `t` that read returns, write to register 0x00 a
byte `w`: for `autoConvert`, bit 6 of `w` is `b` and every other bit is that of
`t`; for `enableBias`, bit 7 of `w` is `b` and every other bit is that of `t`. -/
theorem max31865_autoConvert_enableBias_bit (m : Bus) (b : Bool) :
    (∃ w, (max31865_autoConvert m b).trace =
        (max31865_read m MAX31856_CONFIG_REG).2.trace ++
          [.gpio_reset, .spi_write8 0x80, .spi_write8 w, .gpio_set] ∧
      ∀ i, w.testBit i =
        (if i = 6 then b else ((max31865_read m MAX31856_CONFIG_REG).1).testBit i)) ∧
    (∃ w, (max31865_enableBias m b).trace =
        (max31865_read m MAX31856_CONFIG_REG).2.trace ++
          [.gpio_reset, .spi_write8 0x80, .spi_write8 w, .gpio_set] ∧
      ∀ i, w.testBit i =
        (if i = 7 then b else ((max31865_read m MAX31856_CONFIG_REG).1).testBit i)) := by
  have ht := max31865_read_lt m MAX31856_CONFIG_REG
  cases b
  · refine ⟨⟨_, ?_, u8_clearBit ht (by norm_num : 6 < 8)⟩,
      ⟨_, ?_, u8_clearBit ht (by norm_num : 7 < 8)⟩⟩
    · simp only [max31865_autoConvert, max31865_write_trace]
      simp [MAX31856_CONFIG_MODEAUTO, MAX31856_CONFIG_REG, u8]
    · simp only [max31865_enableBias, max31865_write_trace]
      simp [MAX31856_CONFIG_BIAS, MAX31856_CONFIG_REG, u8]
  · refine ⟨⟨_, ?_, u8_setBit ht (by norm_num : 6 < 8)⟩,
      ⟨_, ?_, u8_setBit ht (by norm_num : 7 < 8)⟩⟩
    · simp only [max31865_autoConvert, max31865_write_trace]
      simp [MAX31856_CONFIG_MODEAUTO, MAX31856_CONFIG_REG, u8]
    · simp only [max31865_enableBias, max31865_write_trace]
      simp [MAX31856_CONFIG_BIAS, MAX31856_CONFIG_REG, u8]

/-! ## The chip is not replaced by the driver -/

@[simp] theorem delay_miso (m : Bus) (n : Nat) : (delay m n).miso = m.miso := rfl

@[simp] theorem max31865_write_miso (m : Bus) (address data : Nat) :
    (max31865_write m address data).miso = m.miso := rfl

@[simp] theorem max31865_read_miso (m : Bus) (address : Nat) :
    (max31865_read m address).2.miso = m.miso := rfl

@[simp] theorem max31865_clearFault_miso (m : Bus) :
    (max31865_clearFault m).miso = m.miso := rfl

@[simp] theorem max31865_enableBias_miso (m : Bus) (b : Bool) :
    (max31865_enableBias m b).miso = m.miso := rfl

/-- The value and the events of `max31865_read16`. -/
theorem max31865_read16_eq (m : Bus) (address : Nat) :
    (max31865_read16 m address).1 =
        u16 (u16 ((m.miso (m.trace ++ [.gpio_reset, .spi_write8 (u8 (address &&& 0x7F)),
            .spi_write8 0xFF]) % 256) <<< 8) |||
          m.miso (m.trace ++ [.gpio_reset, .spi_write8 (u8 (address &&& 0x7F)),
            .spi_write8 0xFF, .spi_write8 0xFF]) % 256) ∧
      (max31865_read16 m address).2.trace =
        m.trace ++ [.gpio_reset, .spi_write8 (u8 (address &&& 0x7F)), .spi_write8 0xFF,
          .spi_write8 0xFF, .gpio_set] := by
  simp [max31865_read16, SELECT, DESELECT, gpio_reset, gpio_set, spi_write8, Bus.emit]

/-! ## `max31865_readRTD`: the raw code -/

/-- The value `max31865_read16` assembles from two bytes, shifted right once. -/
theorem rtd_of_bytes {hi lo : Nat} (hhi : hi < 256) (hlo : lo < 256) :
    u16 (u16 (u16 (hi <<< 8) ||| lo) >>> 1) = (hi * 256 + lo) / 2 := by
  have h1 : u16 (hi <<< 8) = 2 ^ 8 * hi := by
    simp only [u16, Nat.shiftLeft_eq]
    omega
  rw [h1, ← Nat.mul_add_lt_is_or (by simpa using hlo) hi, Nat.shiftRight_eq_div_pow]
  simp only [u16]
  omega

set_option maxRecDepth 100000 in
theorem and_0xFE_table : ∀ lo, lo < 256 → lo &&& 0xFE = lo - lo % 2 := by
  decide

/-- The result of `max31865_readRTD` is the 16-bit read of register 0x01, issued
on the same chip after the trigger sequence, shifted right once. -/
theorem max31865_readRTD_split (m : Bus) :
    ∃ m0 : Bus, m0.miso = m.miso ∧
      max31865_readRTD m = (u16 ((max31865_read16 m0 MAX31856_RTDMSB_REG).1 >>> 1),
        (max31865_read16 m0 MAX31856_RTDMSB_REG).2) := by
  refine ⟨delay (max31865_write (max31865_read (delay (max31865_enableBias
      (max31865_clearFault m) true) 10) MAX31856_CONFIG_REG).2 MAX31856_CONFIG_REG
      (u8 ((max31865_read (delay (max31865_enableBias (max31865_clearFault m) true) 10)
        MAX31856_CONFIG_REG).1 ||| MAX31856_CONFIG_1SHOT))) 65, ?_, ?_⟩
  · simp
  · simp only [max31865_readRTD]

/-- C8: `max31865_readRTD` ends with the 16-bit read of register 0x01; with
`hi` the byte the bus delivers for the first 0xFF of that transaction and `lo`
the byte it delivers for the second, the result is `(hi * 256 + lo) / 2`
rounded down, is at most 32767, and is the same with bit 0 of `lo` masked off. -/
theorem max31865_readRTD_code (m : Bus) :
    ∃ pre : List Event,
      (max31865_readRTD m).2.trace =
        pre ++ [.gpio_reset, .spi_write8 0x01, .spi_write8 0xFF, .spi_write8 0xFF,
          .gpio_set] ∧
      (max31865_readRTD m).1 =
        (m.miso (pre ++ [.gpio_reset, .spi_write8 0x01, .spi_write8 0xFF]) % 256 * 256 +
          m.miso (pre ++ [.gpio_reset, .spi_write8 0x01, .spi_write8 0xFF,
            .spi_write8 0xFF]) % 256) / 2 ∧
      (max31865_readRTD m).1 ≤ 32767 ∧
      (max31865_readRTD m).1 =
        (m.miso (pre ++ [.gpio_reset, .spi_write8 0x01, .spi_write8 0xFF]) % 256 * 256 +
          (m.miso (pre ++ [.gpio_reset, .spi_write8 0x01, .spi_write8 0xFF,
            .spi_write8 0xFF]) % 256 &&& 0xFE)) / 2 := by
  obtain ⟨m0, hmiso, hsplit⟩ := max31865_readRTD_split m
  have h256 : ∀ x : Nat, x % 256 < 256 := fun x => Nat.mod_lt _ (by norm_num)
  have haddr : u8 (MAX31856_RTDMSB_REG &&& 0x7F) = 0x01 := by decide
  refine ⟨m0.trace, ?_, ?_⟩
  · rw [hsplit, (max31865_read16_eq m0 _).2, haddr]
  · rw [hsplit]
    simp only []
    rw [(max31865_read16_eq m0 _).1, haddr, hmiso, rtd_of_bytes (h256 _) (h256 _),
      and_0xFE_table _ (h256 _)]
    have h1 := h256 (m.miso (m0.trace ++ [.gpio_reset, .spi_write8 0x01, .spi_write8 0xFF]))
    have h2 := h256 (m.miso (m0.trace ++ [.gpio_reset, .spi_write8 0x01, .spi_write8 0xFF,
      .spi_write8 0xFF]))
    refine ⟨rfl, ?_, ?_⟩ <;> omega

/-! ## `max31865_temperature` over the reals -/

/-- The function is the conversion applied to the code `max31865_readRTD` returns. -/
theorem max31865_temperature_eq {α : Type} [LinearOrderedField α] (sqrt : α → α) (m : Bus)
    (RTDNominal refResistor : α) :
    max31865_temperature sqrt m RTDNominal refResistor =
      (temperature_of_Rt sqrt (temperature_Rt (max31865_readRTD m).1 refResistor) RTDNominal,
        (max31865_readRTD m).2) := rfl

/-- The candidate of the quadratic formula over the reals, in closed form. -/
theorem temperature_quadratic_real (Rt RTDNominal : ℝ) :
    temperature_quadratic Real.sqrt Rt RTDNominal =
      (Real.sqrt (RTD_A * RTD_A - 4 * RTD_B + 4 * RTD_B / RTDNominal * Rt) - RTD_A)
        / (2 * RTD_B) := by
  simp only [temperature_quadratic]
  ring_nf

/-- The polynomial over the reals, in closed form. -/
theorem temperature_poly_real (Rt RTDNominal : ℝ) :
    temperature_poly Rt RTDNominal =
      -242.02 + 2.2228 * (Rt / RTDNominal * 100)
        + 2.5859e-3 * (Rt / RTDNominal * 100) ^ 2
        - 4.8260e-6 * (Rt / RTDNominal * 100) ^ 3
        - 2.8183e-8 * (Rt / RTDNominal * 100) ^ 4
        + 1.5243e-10 * (Rt / RTDNominal * 100) ^ 5 := by
  simp only [temperature_poly]
  ring

theorem quadratic_at_nominal (n : ℝ) (hn : 0 < n) :
    temperature_quadratic Real.sqrt n n = 0 := by
  rw [temperature_quadratic_real]
  have h : (RTD_A * RTD_A - 4 * RTD_B + 4 * RTD_B / n * n : ℝ) = RTD_A ^ 2 := by
    field_simp
    ring
  have hA : (0:ℝ) ≤ RTD_A := by unfold RTD_A; norm_num
  rw [h, Real.sqrt_sq hA]
  simp

/-- Bounds on the quadratic candidate from bounds on the argument of the square
root. -/
theorem quadratic_bounds (Rt n lo hi : ℝ)
    (hlo0 : 0 ≤ RTD_A + 2 * RTD_B * lo)
    (hlo : RTD_A * RTD_A - 4 * RTD_B + 4 * RTD_B / n * Rt ≤ (RTD_A + 2 * RTD_B * lo) ^ 2)
    (hhi0 : 0 ≤ RTD_A + 2 * RTD_B * hi)
    (hhi : (RTD_A + 2 * RTD_B * hi) ^ 2 ≤ RTD_A * RTD_A - 4 * RTD_B + 4 * RTD_B / n * Rt) :
    lo ≤ temperature_quadratic Real.sqrt Rt n ∧ temperature_quadratic Real.sqrt Rt n ≤ hi := by
  have hB : (2 * RTD_B : ℝ) < 0 := by unfold RTD_B; norm_num
  rw [temperature_quadratic_real]
  constructor
  · rw [le_div_iff_of_neg hB]
    have := (Real.sqrt_le_left hlo0).2 hlo
    linarith
  · rw [div_le_iff_of_neg hB]
    have := (Real.le_sqrt hhi0 (le_trans (sq_nonneg _) hhi)).2 hhi
    linarith

theorem poly_at_nominal (n : ℝ) (hn : 0 < n) : temperature_poly n n = -0.001 := by
  rw [temperature_poly_real, div_self hn.ne']
  norm_num

/-- Solving `s ^ 2 = A * A - 4 * B + 4 * B / n * R` for `R`. -/
theorem cvd_inverse (A B n R s : ℝ) (hB : B ≠ 0) (hn : n ≠ 0)
    (hs : s ^ 2 = A * A - 4 * B + 4 * B / n * R) :
    R = n * (1 + A * ((s - A) / (2 * B)) + B * ((s - A) / (2 * B)) ^ 2) := by
  field_simp at hs ⊢
  linear_combination (-2 * B ^ 2) * hs

theorem RTD_A_pos : (0 : ℝ) < RTD_A := by unfold RTD_A; norm_num

theorem RTD_B_neg : (RTD_B : ℝ) < 0 := by unfold RTD_B; norm_num

/-- The quadratic candidate is non-negative exactly from the nominal resistance
upwards. -/
theorem quadratic_nonneg_iff (Rt n : ℝ) (hn : 0 < n) :
    0 ≤ temperature_quadratic Real.sqrt Rt n ↔ n ≤ Rt := by
  have hB : (2 * RTD_B : ℝ) < 0 := by linarith [RTD_B_neg]
  rw [temperature_quadratic_real, le_div_iff_of_neg hB, zero_mul, sub_nonpos,
    Real.sqrt_le_left RTD_A_pos.le]
  have h : (RTD_A * RTD_A - 4 * RTD_B + 4 * RTD_B / n * Rt : ℝ) =
      RTD_A ^ 2 + (-4 * RTD_B) / n * (n - Rt) := by
    field_simp
    ring
  rw [h]
  have hc : (0 : ℝ) < (-4 * RTD_B) / n := div_pos (by linarith [RTD_B_neg]) hn
  constructor
  · intro hle
    by_contra hlt
    push_neg at hlt
    have : 0 < (-4 * RTD_B) / n * (n - Rt) := mul_pos hc (by linarith)
    linarith
  · intro hle
    have : (-4 * RTD_B) / n * (n - Rt) ≤ 0 :=
      mul_nonpos_of_nonneg_of_nonpos hc.le (by linarith)
    linarith

/-- The quadratic candidate increases strictly with the resistance, as long as
the argument of the square root is not negative. -/
theorem quadratic_strictMono (R₁ R₂ n : ℝ) (hn : 0 < n) (hR : R₁ < R₂)
    (hD : 0 ≤ RTD_A * RTD_A - 4 * RTD_B + 4 * RTD_B / n * R₂) :
    temperature_quadratic Real.sqrt R₁ n < temperature_quadratic Real.sqrt R₂ n := by
  have hB : (2 * RTD_B : ℝ) < 0 := by linarith [RTD_B_neg]
  have hc : (4 * RTD_B : ℝ) / n < 0 := div_neg_of_neg_of_pos (by linarith [RTD_B_neg]) hn
  have hlt : (RTD_A * RTD_A - 4 * RTD_B + 4 * RTD_B / n * R₂ : ℝ) <
      RTD_A * RTD_A - 4 * RTD_B + 4 * RTD_B / n * R₁ := by
    have := mul_lt_mul_of_neg_left hR hc
    linarith
  have hs := Real.sqrt_lt_sqrt hD hlt
  rw [temperature_quadratic_real, temperature_quadratic_real, div_lt_div_right_of_neg hB]
  linarith

/-- The degree-5 polynomial increases strictly on `[0, 100]`. -/
theorem poly_expr_strictMono (x y : ℝ) (hx : 0 ≤ x) (hxy : x < y) (hy : y ≤ 100) :
    -242.02 + 2.2228 * x + 2.5859e-3 * x ^ 2 - 4.8260e-6 * x ^ 3 - 2.8183e-8 * x ^ 4
        + 1.5243e-10 * x ^ 5 <
      -242.02 + 2.2228 * y + 2.5859e-3 * y ^ 2 - 4.8260e-6 * y ^ 3 - 2.8183e-8 * y ^ 4
        + 1.5243e-10 * y ^ 5 := by
  have hy0 : 0 ≤ y := by linarith
  have hx1 : x ≤ 100 := by linarith
  have key : (-242.02 + 2.2228 * y + 2.5859e-3 * y ^ 2 - 4.8260e-6 * y ^ 3
        - 2.8183e-8 * y ^ 4 + 1.5243e-10 * y ^ 5)
      - (-242.02 + 2.2228 * x + 2.5859e-3 * x ^ 2 - 4.8260e-6 * x ^ 3
        - 2.8183e-8 * x ^ 4 + 1.5243e-10 * x ^ 5) = (y - x) *
      (2.2228 + 2.5859e-3 * (x + y) - 4.8260e-6 * (x ^ 2 + x * y + y ^ 2)
        - 2.8183e-8 * (x ^ 3 + x ^ 2 * y + x * y ^ 2 + y ^ 3)
        + 1.5243e-10 * (x ^ 4 + x ^ 3 * y + x ^ 2 * y ^ 2 + x * y ^ 3 + y ^ 4)) := by
    ring
  have hxx : x ^ 2 ≤ 100 ^ 2 := pow_le_pow_left₀ hx hx1 2
  have hyy : y ^ 2 ≤ 100 ^ 2 := pow_le_pow_left₀ hy0 hy 2
  have hxy2 : x * y ≤ 100 * 100 := mul_le_mul hx1 hy hy0 (by norm_num)
  have hx3 : x ^ 3 ≤ 100 ^ 3 := pow_le_pow_left₀ hx hx1 3
  have hy3 : y ^ 3 ≤ 100 ^ 3 := pow_le_pow_left₀ hy0 hy 3
  have hx2y : x ^ 2 * y ≤ 100 ^ 2 * 100 := mul_le_mul hxx hy hy0 (by norm_num)
  have hxy2' : x * y ^ 2 ≤ 100 * 100 ^ 2 := mul_le_mul hx1 hyy (by positivity) (by norm_num)
  have h4 : 0 ≤ x ^ 4 + x ^ 3 * y + x ^ 2 * y ^ 2 + x * y ^ 3 + y ^ 4 := by positivity
  have hq : 0 < (2.2228 + 2.5859e-3 * (x + y) - 4.8260e-6 * (x ^ 2 + x * y + y ^ 2)
        - 2.8183e-8 * (x ^ 3 + x ^ 2 * y + x * y ^ 2 + y ^ 3)
        + 1.5243e-10 * (x ^ 4 + x ^ 3 * y + x ^ 2 * y ^ 2 + x * y ^ 3 + y ^ 4) : ℝ) := by
    nlinarith
  have := mul_pos (sub_pos.2 hxy) hq
  linarith

/-- The polynomial branch increases strictly with the resistance up to the
nominal resistance. -/
theorem temperature_poly_strictMono (R₁ R₂ n : ℝ) (hn : 0 < n) (h0 : 0 ≤ R₁)
    (hR : R₁ < R₂) (h2 : R₂ ≤ n) : temperature_poly R₁ n < temperature_poly R₂ n := by
  rw [temperature_poly_real, temperature_poly_real]
  apply poly_expr_strictMono
  · positivity
  · have := div_lt_div_of_pos_right hR hn
    linarith
  · have : R₂ / n ≤ 1 := (div_le_one hn).2 h2
    linarith

/-- Below the nominal resistance the polynomial branch is negative. -/
theorem temperature_poly_neg (Rt n : ℝ) (hn : 0 < n) (h0 : 0 ≤ Rt) (h : Rt < n) :
    temperature_poly Rt n < 0 := by
  have := temperature_poly_strictMono Rt n n hn h0 h le_rfl
  rw [poly_at_nominal n hn] at this
  linarith

/-- From resistance to temperature, the value returned increases strictly,
also from the polynomial branch to the quadratic branch. -/
theorem temperature_of_Rt_strictMono (R₁ R₂ n : ℝ) (hn : 0 < n) (h0 : 0 ≤ R₁)
    (hR : R₁ < R₂) (hD : 0 ≤ RTD_A * RTD_A - 4 * RTD_B + 4 * RTD_B / n * R₂) :
    temperature_of_Rt Real.sqrt R₁ n < temperature_of_Rt Real.sqrt R₂ n := by
  simp only [temperature_of_Rt, ge_iff_le, quadratic_nonneg_iff _ n hn]
  by_cases h1 : n ≤ R₁
  · rw [if_pos h1, if_pos (by linarith : n ≤ R₂)]
    exact quadratic_strictMono R₁ R₂ n hn hR hD
  · rw [if_neg h1]
    push_neg at h1
    by_cases h2 : n ≤ R₂
    · rw [if_pos h2]
      have hq := (quadratic_nonneg_iff R₂ n hn).2 h2
      have hp := temperature_poly_neg R₁ n hn h0 h1
      linarith
    · rw [if_neg h2]
      push_neg at h2
      exact temperature_poly_strictMono R₁ R₂ n hn h0 hR h2.le

/-- For a reference resistor of 4.3 times the nominal resistance, no raw code
makes the argument of the square root negative. -/
theorem radicand_nonneg_43 (c : Nat) (hc : c ≤ 32767) (n : ℝ) (hn : 0 < n) :
    (0 : ℝ) ≤ RTD_A * RTD_A - 4 * RTD_B + 4 * RTD_B / n * temperature_Rt c (4.3 * n) := by
  have hc' : (c : ℝ) ≤ 32767 := by exact_mod_cast hc
  have h : (RTD_A * RTD_A - 4 * RTD_B + 4 * RTD_B / n * temperature_Rt c (4.3 * n) : ℝ) =
      RTD_A * RTD_A - 4 * RTD_B + 4 * RTD_B * 4.3 / 32768 * c := by
    simp only [temperature_Rt]
    field_simp
    ring
  rw [h]
  unfold RTD_A RTD_B
  norm_num
  linarith

theorem temperature_Rt_lt (c₁ c₂ : Nat) (h : c₁ < c₂) (ref : ℝ) (href : 0 < ref) :
    0 ≤ temperature_Rt c₁ ref ∧ temperature_Rt c₁ ref < temperature_Rt c₂ ref := by
  have hc : (c₁ : ℝ) < c₂ := by exact_mod_cast h
  simp only [temperature_Rt]
  constructor
  · positivity
  · have := div_lt_div_of_pos_right hc (by norm_num : (0 : ℝ) < 32768)
    exact mul_lt_mul_of_pos_right this href

/-! ## Reference points -/

/-- C2: with nominal resistance 100, the resistance-to-temperature stage of
`max31865_temperature` maps the resistance 100.0 ohm to a value in
`[-0.01, 0.01]`. -/
theorem temperature_at_100_ohm :
    -0.01 ≤ temperature_of_Rt Real.sqrt (100 : ℝ) 100 ∧
    temperature_of_Rt Real.sqrt (100 : ℝ) 100 ≤ 0.01 := by
  have h := quadratic_at_nominal 100 (by norm_num)
  simp only [temperature_of_Rt, h]
  norm_num

/-- C3: with nominal resistance 100, at the resistance 138.50 ohm the quadratic
candidate is not negative, it is the value returned, and that value is within
0.1 of 100.0. -/
theorem temperature_at_138_50_ohm :
    0 ≤ temperature_quadratic Real.sqrt (138.50 : ℝ) 100 ∧
    temperature_of_Rt Real.sqrt (138.50 : ℝ) 100 =
      temperature_quadratic Real.sqrt (138.50 : ℝ) 100 ∧
    |temperature_of_Rt Real.sqrt (138.50 : ℝ) 100 - 100.0| ≤ 0.1 := by
  have hb := quadratic_bounds 138.50 100 99.9 100.1
    (by unfold RTD_A RTD_B; norm_num) (by unfold RTD_A RTD_B; norm_num)
    (by unfold RTD_A RTD_B; norm_num) (by unfold RTD_A RTD_B; norm_num)
  have h0 : 0 ≤ temperature_quadratic Real.sqrt (138.50 : ℝ) 100 := by linarith [hb.1]
  have he : temperature_of_Rt Real.sqrt (138.50 : ℝ) 100 =
      temperature_quadratic Real.sqrt (138.50 : ℝ) 100 := by
    simp only [temperature_of_Rt]
    rw [if_pos h0]
  refine ⟨h0, he, ?_⟩
  rw [he, abs_le]
  constructor <;> linarith [hb.1, hb.2]

/-- C4: with nominal resistance 100, at the resistance 80.31 ohm the quadratic
candidate is negative, the value returned is the degree-5 polynomial at
`R' = 80.31`, and that value is within 0.2 of -50.0. -/
theorem temperature_at_80_31_ohm :
    temperature_quadratic Real.sqrt (80.31 : ℝ) 100 < 0 ∧
    temperature_of_Rt Real.sqrt (80.31 : ℝ) 100 = temperature_poly (80.31 : ℝ) 100 ∧
    temperature_of_Rt Real.sqrt (80.31 : ℝ) 100 =
      -242.02 + 2.2228 * 80.31 + 2.5859e-3 * 80.31 ^ 2 - 4.8260e-6 * 80.31 ^ 3
        - 2.8183e-8 * 80.31 ^ 4 + 1.5243e-10 * 80.31 ^ 5 ∧
    |temperature_of_Rt Real.sqrt (80.31 : ℝ) 100 - (-50.0)| ≤ 0.2 := by
  have hb := quadratic_bounds 80.31 100 (-60) (-40)
    (by unfold RTD_A RTD_B; norm_num) (by unfold RTD_A RTD_B; norm_num)
    (by unfold RTD_A RTD_B; norm_num) (by unfold RTD_A RTD_B; norm_num)
  have h0 : temperature_quadratic Real.sqrt (80.31 : ℝ) 100 < 0 := by linarith [hb.2]
  have he : temperature_of_Rt Real.sqrt (80.31 : ℝ) 100 = temperature_poly (80.31 : ℝ) 100 := by
    simp only [temperature_of_Rt]
    rw [if_neg (not_le.2 h0)]
  refine ⟨h0, he, ?_, ?_⟩
  · rw [he, temperature_poly_real]
    norm_num
  · rw [he, temperature_poly_real, abs_le]
    constructor <;> norm_num

/-! ## The two branches -/

/-- C5: for every nominal resistance `n > 0`, at the resistance `R = n` of
0 degC the value of the quadratic branch and the value of the degree-5
polynomial branch differ by at most 0.01. -/
theorem temperature_branches_agree_at_nominal (n : ℝ) (hn : 0 < n) :
    |temperature_quadratic Real.sqrt n n - temperature_poly n n| ≤ 0.01 := by
  rw [quadratic_at_nominal n hn, poly_at_nominal n hn, abs_le]
  constructor <;> norm_num

theorem temperature_branches_agree_at_nominal_witness :
    (0 : ℝ) < 100 ∧
      |temperature_quadratic Real.sqrt (100 : ℝ) 100 - temperature_poly (100 : ℝ) 100| ≤ 0.01 :=
  ⟨by norm_num, temperature_branches_agree_at_nominal 100 (by norm_num)⟩

/-- C6: for the PT100 pair (nominal 100.0, reference 430.0) and for the PT1000
pair (nominal 1000.0, reference 4300.0), and raw codes `c₁ < c₂ ≤ 32767`, the
temperature computed from `c₁` is strictly less than the one computed from
`c₂`, whichever branch each code takes. -/
theorem temperature_of_rtd_strictMono (c₁ c₂ : Nat) (h : c₁ < c₂) (h2 : c₂ ≤ 32767) :
    temperature_of_rtd Real.sqrt c₁ (100.0 : ℝ) 430.0 <
        temperature_of_rtd Real.sqrt c₂ (100.0 : ℝ) 430.0 ∧
      temperature_of_rtd Real.sqrt c₁ (1000.0 : ℝ) 4300.0 <
        temperature_of_rtd Real.sqrt c₂ (1000.0 : ℝ) 4300.0 := by
  constructor
  · have hD := radicand_nonneg_43 c₂ h2 100.0 (by norm_num)
    have hR := temperature_Rt_lt c₁ c₂ h (430.0 : ℝ) (by norm_num)
    rw [show (4.3 * 100.0 : ℝ) = 430.0 by norm_num] at hD
    exact temperature_of_Rt_strictMono _ _ _ (by norm_num) hR.1 hR.2 hD
  · have hD := radicand_nonneg_43 c₂ h2 1000.0 (by norm_num)
    have hR := temperature_Rt_lt c₁ c₂ h (4300.0 : ℝ) (by norm_num)
    rw [show (4.3 * 1000.0 : ℝ) = 4300.0 by norm_num] at hD
    exact temperature_of_Rt_strictMono _ _ _ (by norm_num) hR.1 hR.2 hD

theorem temperature_of_rtd_strictMono_witness :
    7620 < 7621 ∧ 7621 ≤ 32767 ∧
      temperature_of_rtd Real.sqrt 7620 (100.0 : ℝ) 430.0 <
        temperature_of_rtd Real.sqrt 7621 (100.0 : ℝ) 430.0 ∧
      temperature_of_rtd Real.sqrt 7620 (1000.0 : ℝ) 4300.0 <
        temperature_of_rtd Real.sqrt 7621 (1000.0 : ℝ) 4300.0 :=
  ⟨by decide, by decide, temperature_of_rtd_strictMono 7620 7621 (by decide) (by decide)⟩

/-- C7: for every nominal resistance `n > 0` and resistance `R` with
`Z2 + Z3 * R ≥ 0`, if the quadratic candidate `T` is not negative then it is the
value returned, and `R = n * (1 + A * T + B * T ^ 2)` with `A = 3.9083e-3` and
`B = -5.775e-7`. -/
theorem temperature_quadratic_inverse (n R : ℝ) (hn : 0 < n)
    (hD : 0 ≤ RTD_A * RTD_A - 4 * RTD_B + 4 * RTD_B / n * R)
    (hT : 0 ≤ temperature_quadratic Real.sqrt R n) :
    temperature_of_Rt Real.sqrt R n = temperature_quadratic Real.sqrt R n ∧
    R = n * (1 + 3.9083e-3 * temperature_quadratic Real.sqrt R n
              + (-5.775e-7) * temperature_quadratic Real.sqrt R n ^ 2) := by
  constructor
  · simp only [temperature_of_Rt]
    rw [if_pos hT]
  · rw [temperature_quadratic_real]
    have hB : (RTD_B : ℝ) ≠ 0 := by unfold RTD_B; norm_num
    have := cvd_inverse RTD_A RTD_B n R _ hB hn.ne' (Real.sq_sqrt hD)
    simpa [RTD_A, RTD_B] using this

theorem temperature_quadratic_inverse_witness :
    (0 : ℝ) < 100 ∧
      (0 : ℝ) ≤ RTD_A * RTD_A - 4 * RTD_B + 4 * RTD_B / 100 * 138.50 ∧
      0 ≤ temperature_quadratic Real.sqrt (138.50 : ℝ) 100 ∧
      temperature_of_Rt Real.sqrt (138.50 : ℝ) 100 =
        temperature_quadratic Real.sqrt (138.50 : ℝ) 100 ∧
      (138.50 : ℝ) = 100 * (1 + 3.9083e-3 * temperature_quadratic Real.sqrt (138.50 : ℝ) 100
        + (-5.775e-7) * temperature_quadratic Real.sqrt (138.50 : ℝ) 100 ^ 2) :=
  have hn : (0 : ℝ) < 100 := by norm_num
  have hD : (0 : ℝ) ≤ RTD_A * RTD_A - 4 * RTD_B + 4 * RTD_B / 100 * 138.50 := by
    unfold RTD_A RTD_B; norm_num
  have hT : 0 ≤ temperature_quadratic Real.sqrt (138.50 : ℝ) 100 :=
    (quadratic_nonneg_iff 138.50 100 hn).2 (by norm_num)
  ⟨hn, hD, hT, temperature_quadratic_inverse 100 138.50 hn hD hT⟩

/-! ## Transaction framing -/

theorem u8_and_7F (a : Nat) : u8 (a &&& 0x7F) = a &&& 0x7F :=
  Nat.mod_eq_of_lt (lt_of_le_of_lt Nat.and_le_right (by norm_num))

set_option maxRecDepth 100000 in
theorem or_0x80_table : ∀ a, a < 256 →
    u8 (a ||| 0x80) = a ||| 0x80 ∧ (a ||| 0x80).testBit 7 = true := by
  decide

theorem and_0x7F_testBit (a : Nat) : (a &&& 0x7F).testBit 7 = false := by
  rw [Nat.testBit_and]
  have : (0x7F : Nat).testBit 7 = false := by decide
  simp [this]

/-- C15: for every address byte and data byte, the events of `max31865_write`
are exactly CS low, send `address OR 0x80`, send `data`, CS high; those of
`max31865_read` exactly CS low, send `address AND 0x7F`, send 0xFF, CS high;
those of `max31865_read16` exactly CS low, send `address AND 0x7F`, send 0xFF,
send 0xFF, CS high. The first byte of a write has bit 7 set, the first byte of
a read has bit 7 clear, and the last event of each transaction is CS high. -/
theorem max31865_transaction_framing (m : Bus) (address data : Nat) (ha : address < 256) :
    (max31865_write m address data).trace =
        m.trace ++ [.gpio_reset, .spi_write8 (address ||| 0x80), .spi_write8 data,
          .gpio_set] ∧
      (max31865_read m address).2.trace =
        m.trace ++ [.gpio_reset, .spi_write8 (address &&& 0x7F), .spi_write8 0xFF,
          .gpio_set] ∧
      (max31865_read16 m address).2.trace =
        m.trace ++ [.gpio_reset, .spi_write8 (address &&& 0x7F), .spi_write8 0xFF,
          .spi_write8 0xFF, .gpio_set] ∧
      (address ||| 0x80).testBit 7 = true ∧
      (address &&& 0x7F).testBit 7 = false ∧
      (max31865_write m address data).trace.getLast? = some .gpio_set ∧
      (max31865_read m address).2.trace.getLast? = some .gpio_set ∧
      (max31865_read16 m address).2.trace.getLast? = some .gpio_set := by
  have hw := max31865_write_trace m address data
  have hr := max31865_read_trace m address
  have hr16 := (max31865_read16_eq m address).2
  rw [(or_0x80_table address ha).1] at hw
  rw [u8_and_7F] at hr hr16
  refine ⟨hw, hr, hr16, (or_0x80_table address ha).2, and_0x7F_testBit address, ?_, ?_, ?_⟩
  · rw [hw]; simp
  · rw [hr]; simp
  · rw [hr16]; simp

theorem max31865_transaction_framing_witness :
    (0x00 : Nat) < 256 ∧
      (max31865_write ⟨fun _ => 0, []⟩ 0x00 0x12).trace =
        [.gpio_reset, .spi_write8 0x80, .spi_write8 0x12, .gpio_set] ∧
      (max31865_read ⟨fun _ => 0, []⟩ 0x00).2.trace =
        [.gpio_reset, .spi_write8 0x00, .spi_write8 0xFF, .gpio_set] ∧
      (max31865_read16 ⟨fun _ => 0, []⟩ 0x00).2.trace =
        [.gpio_reset, .spi_write8 0x00, .spi_write8 0xFF, .spi_write8 0xFF, .gpio_set] :=
  have h := max31865_transaction_framing ⟨fun _ => 0, []⟩ 0x00 0x12 (by decide)
  ⟨by decide, h.1, h.2.1, h.2.2.1⟩

/-- C16: `max31865_read16` returns `b1 * 256 + b2`, where `b1` is the byte
answered to the first 0xFF and `b2` the byte answered to the second, a value
below 65536; and `max31865_read` returns the byte answered to its 0xFF. -/
theorem max31865_read16_high_byte_first (m : Bus) (address : Nat) :
    (max31865_read16 m address).1 =
        m.miso (m.trace ++ [.gpio_reset, .spi_write8 (address &&& 0x7F),
            .spi_write8 0xFF]) % 256 * 256 +
          m.miso (m.trace ++ [.gpio_reset, .spi_write8 (address &&& 0x7F),
            .spi_write8 0xFF, .spi_write8 0xFF]) % 256 ∧
      (max31865_read16 m address).1 < 65536 ∧
      (max31865_read m address).1 =
        m.miso (m.trace ++ [.gpio_reset, .spi_write8 (address &&& 0x7F),
          .spi_write8 0xFF]) % 256 := by
  have h256 : ∀ x : Nat, x % 256 < 256 := fun x => Nat.mod_lt _ (by norm_num)
  have hv := (max31865_read16_eq m address).1
  rw [u8_and_7F] at hv
  have hb : ∀ b1 b2 : Nat, b1 < 256 → b2 < 256 →
      u16 (u16 (b1 <<< 8) ||| b2) = b1 * 256 + b2 := by
    intro b1 b2 h1 h2
    have e1 : u16 (b1 <<< 8) = 2 ^ 8 * b1 := by
      simp only [u16, Nat.shiftLeft_eq]
      omega
    rw [e1, ← Nat.mul_add_lt_is_or (by simpa using h2) b1]
    simp only [u16]
    omega
  rw [hb _ _ (h256 _) (h256 _)] at hv
  refine ⟨hv, ?_, ?_⟩
  · rw [hv]
    have h1 := h256 (m.miso (m.trace ++ [.gpio_reset, .spi_write8 (address &&& 0x7F),
      .spi_write8 0xFF]))
    have h2 := h256 (m.miso (m.trace ++ [.gpio_reset, .spi_write8 (address &&& 0x7F),
      .spi_write8 0xFF, .spi_write8 0xFF]))
    omega
  · simp [max31865_read, SELECT, DESELECT, gpio_reset, gpio_set, spi_write8, Bus.emit,
      u8_and_7F]

/-! ## The events of the public functions -/

theorem cfgReadByte_lt (miso : List Event → Nat) (hist : List Event) :
    cfgReadByte miso hist < 256 := Nat.mod_lt _ (by norm_num)

theorem Bus.ext_of {m m' : Bus} (h1 : m.miso = m'.miso) (h2 : m.trace = m'.trace) :
    m = m' := by
  cases m
  cases m'
  simp only [Bus.mk.injEq]
  exact ⟨h1, h2⟩

/-- A read of the configuration register followed by a write of a byte computed
from the byte read. -/
theorem cfg_read_write_eq (m : Bus) (g : Nat → Nat) :
    max31865_write (max31865_read m MAX31856_CONFIG_REG).2 MAX31856_CONFIG_REG
        (g (max31865_read m MAX31856_CONFIG_REG).1) =
      ⟨m.miso, m.trace ++ cfgReadEvents ++ cfgWriteEvents (g (cfgReadByte m.miso m.trace))⟩ := by
  apply Bus.ext_of
  · rfl
  · rw [max31865_write_trace, max31865_read_trace]
    simp [max31865_read, SELECT, DESELECT, gpio_reset, gpio_set, spi_write8, Bus.emit,
      MAX31856_CONFIG_REG, u8, cfgReadEvents, cfgWriteEvents, cfgReadByte]

set_option maxRecDepth 100000 in
theorem cfg_modify_table : ∀ t, t < 256 →
    u8 (t ||| 0x10) = t ||| 0x10 ∧ u8 (t &&& bitNot32 0x10) = t &&& 0xEF ∧
    u8 (t ||| 0x40) = t ||| 0x40 ∧ u8 (t &&& bitNot32 0x40) = t &&& 0xBF ∧
    u8 (t ||| 0x80) = t ||| 0x80 ∧ u8 (t &&& bitNot32 0x80) = t &&& 0x7F ∧
    u8 (t ||| 0x20) = t ||| 0x20 ∧
    u8 (u8 (t &&& bitNot32 0x2C) ||| 0x02) = (t &&& 0xD3) ||| 0x02 := by
  decide

theorem max31865_setWires_bus (m : Bus) (wires : max31865_numwires_t) :
    max31865_setWires m wires =
      ⟨m.miso, m.trace ++ cfgReadEvents ++ cfgWriteEvents
        (if wires = MAX31865_3WIRE then cfgReadByte m.miso m.trace ||| 0x10
         else cfgReadByte m.miso m.trace &&& 0xEF)⟩ := by
  have h := cfg_modify_table _ (cfgReadByte_lt m.miso m.trace)
  have e := cfg_read_write_eq m (fun t => if wires = MAX31865_3WIRE
    then u8 (t ||| MAX31856_CONFIG_3WIRE) else u8 (t &&& bitNot32 MAX31856_CONFIG_3WIRE))
  simp only [MAX31856_CONFIG_3WIRE, h.1, h.2.1] at e
  exact e

theorem max31865_clearFault_bus (m : Bus) :
    max31865_clearFault m =
      ⟨m.miso, m.trace ++ cfgReadEvents ++ cfgWriteEvents
        ((cfgReadByte m.miso m.trace &&& 0xD3) ||| 0x02)⟩ := by
  have h := cfg_modify_table _ (cfgReadByte_lt m.miso m.trace)
  have e := cfg_read_write_eq m (fun t => u8 (u8 (t &&& bitNot32 0x2C) |||
    MAX31856_CONFIG_FAULTSTAT))
  simp only [MAX31856_CONFIG_FAULTSTAT, h.2.2.2.2.2.2.2] at e
  exact e

theorem max31865_autoConvert_bus (m : Bus) (b : Bool) :
    max31865_autoConvert m b =
      ⟨m.miso, m.trace ++ cfgReadEvents ++ cfgWriteEvents
        (if b then cfgReadByte m.miso m.trace ||| 0x40
         else cfgReadByte m.miso m.trace &&& 0xBF)⟩ := by
  have h := cfg_modify_table _ (cfgReadByte_lt m.miso m.trace)
  have e := cfg_read_write_eq m (fun t => if b
    then u8 (t ||| MAX31856_CONFIG_MODEAUTO) else u8 (t &&& bitNot32 MAX31856_CONFIG_MODEAUTO))
  simp only [MAX31856_CONFIG_MODEAUTO, h.2.2.1, h.2.2.2.1] at e
  exact e

theorem max31865_enableBias_bus (m : Bus) (b : Bool) :
    max31865_enableBias m b =
      ⟨m.miso, m.trace ++ cfgReadEvents ++ cfgWriteEvents
        (if b then cfgReadByte m.miso m.trace ||| 0x80
         else cfgReadByte m.miso m.trace &&& 0x7F)⟩ := by
  have h := cfg_modify_table _ (cfgReadByte_lt m.miso m.trace)
  have e := cfg_read_write_eq m (fun t => if b
    then u8 (t ||| MAX31856_CONFIG_BIAS) else u8 (t &&& bitNot32 MAX31856_CONFIG_BIAS))
  simp only [MAX31856_CONFIG_BIAS, h.2.2.2.2.1, h.2.2.2.2.2.1] at e
  exact e

/-- The one-shot trigger of `max31865_readRTD` (lines 159-161). -/
theorem cfg_oneShot_bus (m : Bus) :
    max31865_write (max31865_read m MAX31856_CONFIG_REG).2 MAX31856_CONFIG_REG
        (u8 ((max31865_read m MAX31856_CONFIG_REG).1 ||| MAX31856_CONFIG_1SHOT)) =
      ⟨m.miso, m.trace ++ cfgReadEvents ++ cfgWriteEvents
        (cfgReadByte m.miso m.trace ||| 0x20)⟩ := by
  have h := cfg_modify_table _ (cfgReadByte_lt m.miso m.trace)
  have e := cfg_read_write_eq m (fun t => u8 (t ||| MAX31856_CONFIG_1SHOT))
  simp only [MAX31856_CONFIG_1SHOT, h.2.2.2.2.2.2.1] at e
  exact e

/-- The events of `max31865_readRTD`. -/
theorem max31865_readRTD_trace (m : Bus) :
    let t1 := cfgReadByte m.miso m.trace
    let h1 := m.trace ++ cfgReadEvents ++ cfgWriteEvents ((t1 &&& 0xD3) ||| 0x02)
    let t2 := cfgReadByte m.miso h1
    let h2 := h1 ++ cfgReadEvents ++ cfgWriteEvents (t2 ||| 0x80) ++ [.delay 10]
    let t3 := cfgReadByte m.miso h2
    (max31865_readRTD m).2.trace =
      h2 ++ cfgReadEvents ++ cfgWriteEvents (t3 ||| 0x20) ++ [.delay 65] ++
        [.gpio_reset, .spi_write8 0x01, .spi_write8 0xFF, .spi_write8 0xFF, .gpio_set] := by
  intro t1 h1 t2 h2 t3
  have h : (max31865_readRTD m).2 =
      (max31865_read16 (delay (max31865_write (max31865_read (delay (max31865_enableBias
        (max31865_clearFault m) true) 10) MAX31856_CONFIG_REG).2 MAX31856_CONFIG_REG
        (u8 ((max31865_read (delay (max31865_enableBias (max31865_clearFault m) true) 10)
          MAX31856_CONFIG_REG).1 ||| MAX31856_CONFIG_1SHOT))) 65) MAX31856_RTDMSB_REG).2 := by
    simp only [max31865_readRTD]
  rw [h, (max31865_read16_eq _ _).2, cfg_oneShot_bus, max31865_enableBias_bus,
    max31865_clearFault_bus]
  simp [delay, Bus.emit, MAX31856_RTDMSB_REG, u8, t1, h1, t2, h2, t3]

/-- C14: the events of `max31865_readRTD` are exactly: the read-modify-write of
register 0x00 of clear-fault; the read-modify-write of register 0x00 that sets
the bias bit; delay 10; a read of register 0x00; a write of register 0x00 with
the byte just read OR 0x20; delay 65; one 16-bit read starting at register
0x01. -/
theorem max31865_readRTD_events (m : Bus) :
    let t1 := cfgReadByte m.miso m.trace
    let h1 := m.trace ++ cfgReadEvents ++ cfgWriteEvents ((t1 &&& 0xD3) ||| 0x02)
    let t2 := cfgReadByte m.miso h1
    let h2 := h1 ++ cfgReadEvents ++ cfgWriteEvents (t2 ||| 0x80) ++ [.delay 10]
    let t3 := cfgReadByte m.miso h2
    (max31865_readRTD m).2.trace =
      h2 ++ cfgReadEvents ++ cfgWriteEvents (t3 ||| 0x20) ++ [.delay 65] ++
        [.gpio_reset, .spi_write8 0x01, .spi_write8 0xFF, .spi_write8 0xFF, .gpio_set] := by
  intro t1 h1 t2 h2 t3
  have h : (max31865_readRTD m).2 =
      (max31865_read16 (delay (max31865_write (max31865_read (delay (max31865_enableBias
        (max31865_clearFault m) true) 10) MAX31856_CONFIG_REG).2 MAX31856_CONFIG_REG
        (u8 ((max31865_read (delay (max31865_enableBias (max31865_clearFault m) true) 10)
          MAX31856_CONFIG_REG).1 ||| MAX31856_CONFIG_1SHOT))) 65) MAX31856_RTDMSB_REG).2 := by
    simp only [max31865_readRTD]
  rw [h, (max31865_read16_eq _ _).2, cfg_oneShot_bus, max31865_enableBias_bus,
    max31865_clearFault_bus]
  simp [delay, Bus.emit, MAX31856_RTDMSB_REG, u8, t1, h1, t2, h2, t3]

/-! ## Read before write -/

/-- A read-modify-write block passes the check when the byte written is a
modification of the byte read, and the check goes on after it. -/
theorem cfgWritesFresh_rmw (miso : List Event → Nat) (hist : List Event) (fresh : Option Nat)
    (w : Nat) (rest : List Event) (hw : cfgBasis (cfgReadByte miso hist) w = true) :
    cfgWritesFresh miso hist fresh (cfgReadEvents ++ cfgWriteEvents w ++ rest) =
      cfgWritesFresh miso (hist ++ cfgReadEvents ++ cfgWriteEvents w) none rest := by
  simp only [cfgReadByte] at hw
  simp [cfgWritesFresh, cfgReadEvents, cfgWriteEvents, hw]

/-- The bus after `max31865_init`. -/
theorem max31865_init_bus (m : Bus) (wires : max31865_numwires_t) :
    (max31865_init m wires).2 =
      max31865_clearFault (max31865_autoConvert (max31865_enableBias (max31865_setWires
        ⟨m.miso, m.trace ++ [.gpio_mode, .gpio_set, .gpio_reset, .spi_write8 0x80,
          .spi_write8 0x00, .gpio_set, .delay 100]⟩ wires) false) false) := by
  have h : delay (max31865_write (DESELECT (gpio_mode m)) MAX31856_CONFIG_REG 0x00) 100 =
      ⟨m.miso, m.trace ++ [.gpio_mode, .gpio_set, .gpio_reset, .spi_write8 0x80,
          .spi_write8 0x00, .gpio_set, .delay 100]⟩ := by
    apply Bus.ext_of
    · rfl
    · simp [delay, max31865_write_trace, DESELECT, gpio_set, gpio_mode, Bus.emit,
        MAX31856_CONFIG_REG, u8]
  rw [← h]
  simp only [max31865_init]

/-- C11 (as amended): in the events of `max31865_setWires`,
`max31865_autoConvert`, `max31865_enableBias`, `max31865_clearFault` and
`max31865_readRTD`, every write transaction to register 0x00 comes immediately
after a read transaction of register 0x00 and writes a modification of the byte
that read returned. `max31865_init` begins with `gpio_mode`, CS high, a write of
0x00 to register 0x00 that no read precedes, and delay 100; in its events after
those, every write transaction to register 0x00 again comes immediately after a
read transaction of register 0x00 and writes a modification of the byte read. -/
theorem max31865_cfg_read_before_write (m : Bus) (wires : max31865_numwires_t) (b : Bool) :
    cfgWritesFresh m.miso m.trace none
        ((max31865_setWires m wires).trace.drop m.trace.length) = true ∧
      cfgWritesFresh m.miso m.trace none
        ((max31865_autoConvert m b).trace.drop m.trace.length) = true ∧
      cfgWritesFresh m.miso m.trace none
        ((max31865_enableBias m b).trace.drop m.trace.length) = true ∧
      cfgWritesFresh m.miso m.trace none
        ((max31865_clearFault m).trace.drop m.trace.length) = true ∧
      cfgWritesFresh m.miso m.trace none
        ((max31865_readRTD m).2.trace.drop m.trace.length) = true ∧
      (max31865_init m wires).2.trace.take (m.trace.length + 7) =
        m.trace ++ [.gpio_mode, .gpio_set, .gpio_reset, .spi_write8 0x80, .spi_write8 0x00,
          .gpio_set, .delay 100] ∧
      cfgWritesFresh m.miso
        (m.trace ++ [.gpio_mode, .gpio_set, .gpio_reset, .spi_write8 0x80, .spi_write8 0x00,
          .gpio_set, .delay 100]) none
        ((max31865_init m wires).2.trace.drop (m.trace.length + 7)) = true := by
  refine ⟨?_, ?_, ?_, ?_, ?_, ?_, ?_⟩
  · rw [max31865_setWires_bus]
    by_cases h : wires = MAX31865_3WIRE <;>
      simp [cfgWritesFresh, cfgReadEvents, cfgWriteEvents, cfgBasis, cfgReadByte, h]
  · rw [max31865_autoConvert_bus]
    cases b <;> simp [cfgWritesFresh, cfgReadEvents, cfgWriteEvents, cfgBasis, cfgReadByte]
  · rw [max31865_enableBias_bus]
    cases b <;> simp [cfgWritesFresh, cfgReadEvents, cfgWriteEvents, cfgBasis, cfgReadByte]
  · rw [max31865_clearFault_bus]
    simp [cfgWritesFresh, cfgReadEvents, cfgWriteEvents, cfgBasis, cfgReadByte]
  · have h := max31865_readRTD_trace m
    simp only [] at h
    rw [h]
    simp [cfgWritesFresh, cfgReadEvents, cfgWriteEvents, cfgBasis, cfgReadByte]
  · rw [max31865_init_bus, max31865_clearFault_bus, max31865_autoConvert_bus,
      max31865_enableBias_bus, max31865_setWires_bus]
    simp only [cfgReadEvents, cfgWriteEvents, List.append_assoc, List.take_append]
    simp
  · rw [max31865_init_bus, max31865_clearFault_bus, max31865_autoConvert_bus,
      max31865_enableBias_bus, max31865_setWires_bus]
    by_cases h : wires = MAX31865_3WIRE <;>
      simp [cfgWritesFresh, cfgReadEvents, cfgWriteEvents, cfgBasis, cfgReadByte, h]

/-- C11 (as stated) fails on `max31865_init`: on the chip that answers 0 to
every transfer, from the empty history, the events of
`max31865_init MAX31865_2WIRE` do not pass the read-before-write check, since
the first write of register 0x00 follows no read. -/
theorem max31865_init_writes_without_read :
    cfgWritesFresh (fun _ => 0) [] none
      (max31865_init ⟨fun _ => 0, []⟩ MAX31865_2WIRE).2.trace = false := by
  decide

/-! ## The driver on a chip that keeps its configuration register -/

theorem Chip.run_append (c : Chip) (h₁ h₂ : List Event) :
    c.run (h₁ ++ h₂) = (c.run h₁).run h₂ := by
  simp [Chip.run, List.foldl_append]

theorem address_bytes : (0x80 &&& 0x80 : Nat) = 0x80 ∧ (0x80 &&& 0x7F : Nat) = 0 ∧
    (0x00 &&& 0x80 : Nat) = 0 ∧ (0x00 &&& 0x7F : Nat) = 0 ∧
    (0x01 &&& 0x80 : Nat) = 0 ∧ (0x01 &&& 0x7F : Nat) = 1 := by
  decide

theorem Chip.run_cfgReadEvents (c : Chip) :
    (c.run cfgReadEvents).cfg = c.cfg := by
  simp [Chip.run, cfgReadEvents, Chip.step]

theorem Chip.run_cfgWriteEvents (c : Chip) (w : Nat) :
    (c.run (cfgWriteEvents w)).cfg = w := by
  simp [Chip.run, cfgWriteEvents, Chip.step, address_bytes.1, address_bytes.2.1]

/-- On this chip a read of the configuration register returns its content. -/
theorem cfgReadByte_chip (c : Chip) (other : List Event → Nat) (hist : List Event) :
    cfgReadByte (c.miso other) hist = (c.run hist).cfg % 256 := by
  have h1 : (hist ++ [Event.gpio_reset, Event.spi_write8 0x00, Event.spi_write8 0xFF]).dropLast
      = hist ++ [Event.gpio_reset, Event.spi_write8 0x00] := by
    rw [List.dropLast_append_of_ne_nil _ (by simp)]
    rfl
  have h2 : (hist ++ [Event.gpio_reset, Event.spi_write8 0x00, Event.spi_write8 0xFF]).getLast?
      = some (Event.spi_write8 0xFF) := by
    simp
  simp only [cfgReadByte, Chip.miso, h1, h2, Chip.run_append]
  simp [Chip.run, Chip.step]

theorem Chip.run_delay (c : Chip) (n : Nat) : (c.run [Event.delay n]).cfg = c.cfg := by
  simp [Chip.run, Chip.step]

/-- A 16-bit read of register 0x01 leaves the configuration register as it is. -/
theorem Chip.run_rtdRead (c : Chip) :
    (c.run [Event.gpio_reset, Event.spi_write8 0x01, Event.spi_write8 0xFF,
      Event.spi_write8 0xFF, Event.gpio_set]).cfg = c.cfg := by
  simp [Chip.run, Chip.step, address_bytes.2.2.2.2.1]

set_option maxRecDepth 100000 in
theorem readRTD_cfg_table : ∀ c, c < 256 →
    c % 256 = c ∧
    ((c &&& 0xD3) ||| 0x02) % 256 = (c &&& 0xD3) ||| 0x02 ∧
    ((c &&& 0xD3) ||| 0x02) ||| 0x80 = (c &&& 0xD3) ||| 0x82 ∧
    ((c &&& 0xD3) ||| 0x82) % 256 = (c &&& 0xD3) ||| 0x82 ∧
    ((c &&& 0xD3) ||| 0x82) ||| 0x20 = (c &&& 0x51) ||| 0xA2 ∧
    ((c &&& 0xD3) ||| 0x82).testBit 7 = true ∧
    ((c &&& 0x51) ||| 0xA2).testBit 7 = true := by
  decide

/-- C13: on a chip whose read of register 0x00 returns the byte last written
to it, holding the configuration byte `c` before the call, `max31865_readRTD`
writes `(c AND 0xD3) OR 0x02`, then `(c AND 0xD3) OR 0x82`, then
`(c AND 0x51) OR 0xA2` to register 0x00 and nothing else; the register holds
`(c AND 0x51) OR 0xA2` afterwards, and bit 7 (bias) is set in the second write
and in every write after it. -/
theorem max31865_readRTD_leaves_bias (c0 : Chip) (other : List Event → Nat)
    (h0 : List Event) (hc : (c0.run h0).cfg < 256) :
    (max31865_readRTD ⟨c0.miso other, h0⟩).2.trace =
        h0 ++ cfgReadEvents ++ cfgWriteEvents (((c0.run h0).cfg &&& 0xD3) ||| 0x02) ++
          cfgReadEvents ++ cfgWriteEvents (((c0.run h0).cfg &&& 0xD3) ||| 0x82) ++
          [.delay 10] ++
          cfgReadEvents ++ cfgWriteEvents (((c0.run h0).cfg &&& 0x51) ||| 0xA2) ++
          [.delay 65] ++
          [.gpio_reset, .spi_write8 0x01, .spi_write8 0xFF, .spi_write8 0xFF, .gpio_set] ∧
      (c0.run (max31865_readRTD ⟨c0.miso other, h0⟩).2.trace).cfg =
        ((c0.run h0).cfg &&& 0x51) ||| 0xA2 ∧
      (((c0.run h0).cfg &&& 0xD3) ||| 0x82).testBit 7 = true ∧
      (((c0.run h0).cfg &&& 0x51) ||| 0xA2).testBit 7 = true := by
  have tb := readRTD_cfg_table _ hc
  have hT := max31865_readRTD_trace ⟨c0.miso other, h0⟩
  simp only [] at hT
  have e1 : cfgReadByte (c0.miso other) h0 = (c0.run h0).cfg := by
    rw [cfgReadByte_chip, tb.1]
  rw [e1] at hT
  have e2 : cfgReadByte (c0.miso other)
      (h0 ++ cfgReadEvents ++ cfgWriteEvents (((c0.run h0).cfg &&& 0xD3) ||| 0x02)) =
      ((c0.run h0).cfg &&& 0xD3) ||| 0x02 := by
    rw [cfgReadByte_chip, Chip.run_append, Chip.run_cfgWriteEvents, tb.2.1]
  rw [e2, tb.2.2.1] at hT
  have e3 : cfgReadByte (c0.miso other)
      (h0 ++ cfgReadEvents ++ cfgWriteEvents (((c0.run h0).cfg &&& 0xD3) ||| 0x02) ++
        cfgReadEvents ++ cfgWriteEvents (((c0.run h0).cfg &&& 0xD3) ||| 0x82) ++
        [.delay 10]) = ((c0.run h0).cfg &&& 0xD3) ||| 0x82 := by
    rw [cfgReadByte_chip, Chip.run_append, Chip.run_delay, Chip.run_append,
      Chip.run_cfgWriteEvents, tb.2.2.2.1]
  rw [e3, tb.2.2.2.2.1] at hT
  refine ⟨hT, ?_, tb.2.2.2.2.2.1, tb.2.2.2.2.2.2⟩
  rw [hT, Chip.run_append, Chip.run_rtdRead, Chip.run_append, Chip.run_delay, Chip.run_append,
    Chip.run_cfgWriteEvents]

theorem max31865_readRTD_leaves_bias_witness :
    ((⟨0x11, .idle⟩ : Chip).run []).cfg < 256 ∧
      ((⟨0x11, .idle⟩ : Chip).run (max31865_readRTD
        ⟨(⟨0x11, .idle⟩ : Chip).miso (fun _ => 0), []⟩).2.trace).cfg = 0xB3 :=
  ⟨by decide,
    (max31865_readRTD_leaves_bias ⟨0x11, .idle⟩ (fun _ => 0) [] (by decide)).2.1⟩

/-- The events of `max31865_init`. -/
theorem max31865_init_trace (m : Bus) (wires : max31865_numwires_t) :
    let h0 := m.trace ++ [.gpio_mode, .gpio_set, .gpio_reset, .spi_write8 0x80,
      .spi_write8 0x00, .gpio_set, .delay 100]
    let w1 := if wires = MAX31865_3WIRE then cfgReadByte m.miso h0 ||| 0x10
      else cfgReadByte m.miso h0 &&& 0xEF
    let h1 := h0 ++ cfgReadEvents ++ cfgWriteEvents w1
    let w2 := cfgReadByte m.miso h1 &&& 0x7F
    let h2 := h1 ++ cfgReadEvents ++ cfgWriteEvents w2
    let w3 := cfgReadByte m.miso h2 &&& 0xBF
    let h3 := h2 ++ cfgReadEvents ++ cfgWriteEvents w3
    let w4 := (cfgReadByte m.miso h3 &&& 0xD3) ||| 0x02
    (max31865_init m wires).2.trace = h3 ++ cfgReadEvents ++ cfgWriteEvents w4 := by
  intro h0 w1 h1 w2 h2 w3 h3 w4
  rw [max31865_init_bus, max31865_clearFault_bus, max31865_autoConvert_bus,
    max31865_enableBias_bus, max31865_setWires_bus]
  simp [h0, w1, h1, w2, h2, w3, h3, w4]

/-- On the chip model, the configuration register reads 0 after the first
events of `max31865_init`. -/
theorem cfgReadByte_chip_reset (c0 : Chip) (other : List Event → Nat) (h0 : List Event) :
    cfgReadByte (c0.miso other) (h0 ++ [.gpio_mode, .gpio_set, .gpio_reset, .spi_write8 0x80,
      .spi_write8 0x00, .gpio_set, .delay 100]) = 0 := by
  rw [cfgReadByte_chip, Chip.run_append]
  simp [Chip.run, Chip.step, address_bytes.1, address_bytes.2.1]

/-- On the chip model, a read of the configuration register after a write
returns the byte written. -/
theorem cfgReadByte_chip_write (c0 : Chip) (other : List Event → Nat) (h : List Event)
    (w : Nat) :
    cfgReadByte (c0.miso other) (h ++ cfgWriteEvents w) = w % 256 := by
  rw [cfgReadByte_chip, Chip.run_append, Chip.run_cfgWriteEvents]

/-- The configuration register after `max31865_init` on the chip model. -/
theorem max31865_init_cfg (c0 : Chip) (other : List Event → Nat) (h0 : List Event)
    (wires : max31865_numwires_t) :
    (max31865_init ⟨c0.miso other, h0⟩ wires).2.trace =
        h0 ++ [.gpio_mode, .gpio_set, .gpio_reset, .spi_write8 0x80, .spi_write8 0x00,
          .gpio_set, .delay 100] ++
        cfgReadEvents ++ cfgWriteEvents (if wires = MAX31865_3WIRE then 0x10 else 0x00) ++
        cfgReadEvents ++ cfgWriteEvents (if wires = MAX31865_3WIRE then 0x10 else 0x00) ++
        cfgReadEvents ++ cfgWriteEvents (if wires = MAX31865_3WIRE then 0x10 else 0x00) ++
        cfgReadEvents ++ cfgWriteEvents (if wires = MAX31865_3WIRE then 0x12 else 0x02) ∧
      (c0.run (max31865_init ⟨c0.miso other, h0⟩ wires).2.trace).cfg =
        (if wires = MAX31865_3WIRE then 0x12 else 0x02) := by
  have hT := max31865_init_trace ⟨c0.miso other, h0⟩ wires
  simp only [] at hT
  rw [cfgReadByte_chip_reset] at hT
  have hT' : (max31865_init ⟨c0.miso other, h0⟩ wires).2.trace =
        h0 ++ [.gpio_mode, .gpio_set, .gpio_reset, .spi_write8 0x80, .spi_write8 0x00,
          .gpio_set, .delay 100] ++
        cfgReadEvents ++ cfgWriteEvents (if wires = MAX31865_3WIRE then 0x10 else 0x00) ++
        cfgReadEvents ++ cfgWriteEvents (if wires = MAX31865_3WIRE then 0x10 else 0x00) ++
        cfgReadEvents ++ cfgWriteEvents (if wires = MAX31865_3WIRE then 0x10 else 0x00) ++
        cfgReadEvents ++ cfgWriteEvents (if wires = MAX31865_3WIRE then 0x12 else 0x02) := by
    by_cases h : wires = MAX31865_3WIRE
    · simp only [h, if_true] at hT ⊢
      rw [show (0 ||| 0x10 : Nat) = 0x10 by decide] at hT
      rw [cfgReadByte_chip_write, show (0x10 % 256 &&& 0x7F : Nat) = 0x10 by decide] at hT
      rw [cfgReadByte_chip_write, show (0x10 % 256 &&& 0xBF : Nat) = 0x10 by decide] at hT
      rw [cfgReadByte_chip_write,
        show ((0x10 % 256 &&& 0xD3) ||| 0x02 : Nat) = 0x12 by decide] at hT
      exact hT
    · simp only [h, if_false] at hT ⊢
      rw [show (0 &&& 0xEF : Nat) = 0x00 by decide] at hT
      rw [cfgReadByte_chip_write, show (0x00 % 256 &&& 0x7F : Nat) = 0x00 by decide] at hT
      rw [cfgReadByte_chip_write, show (0x00 % 256 &&& 0xBF : Nat) = 0x00 by decide] at hT
      rw [cfgReadByte_chip_write,
        show ((0x00 % 256 &&& 0xD3) ||| 0x02 : Nat) = 0x02 by decide] at hT
      exact hT
  refine ⟨hT', ?_⟩
  rw [hT', Chip.run_append, Chip.run_cfgWriteEvents]

/-- C12: `max31865_init` returns true; it is, in this order, chip select set up
and high, the write of 0x00 to register 0x00, delay 100, `max31865_setWires`,
`max31865_enableBias false`, `max31865_autoConvert false` and
`max31865_clearFault`; and on a chip whose read of register 0x00 returns the
byte last written to it, whatever the chip held before, register 0x00 holds
0x12 afterwards for `MAX31865_3WIRE` and 0x02 for `MAX31865_2WIRE` and
`MAX31865_4WIRE`. -/
theorem max31865_init_result (m : Bus) (wires : max31865_numwires_t) (c0 : Chip)
    (other : List Event → Nat) (h0 : List Event) :
    (max31865_init m wires).1 = true ∧
      (max31865_init m wires).2 =
        max31865_clearFault (max31865_autoConvert (max31865_enableBias (max31865_setWires
          (delay (max31865_write (DESELECT (gpio_mode m)) MAX31856_CONFIG_REG 0x00) 100)
          wires) false) false) ∧
      (delay (max31865_write (DESELECT (gpio_mode m)) MAX31856_CONFIG_REG 0x00) 100).trace =
        m.trace ++ [.gpio_mode, .gpio_set, .gpio_reset, .spi_write8 0x80, .spi_write8 0x00,
          .gpio_set, .delay 100] ∧
      (c0.run (max31865_init ⟨c0.miso other, h0⟩ MAX31865_3WIRE).2.trace).cfg = 0x12 ∧
      (c0.run (max31865_init ⟨c0.miso other, h0⟩ MAX31865_2WIRE).2.trace).cfg = 0x02 ∧
      (c0.run (max31865_init ⟨c0.miso other, h0⟩ MAX31865_4WIRE).2.trace).cfg = 0x02 := by
  refine ⟨by simp only [max31865_init], by simp only [max31865_init], ?_,
    (max31865_init_cfg c0 other h0 MAX31865_3WIRE).2,
    (max31865_init_cfg c0 other h0 MAX31865_2WIRE).2,
    (max31865_init_cfg c0 other h0 MAX31865_4WIRE).2⟩
  simp [delay, max31865_write_trace, DESELECT, gpio_set, gpio_mode, Bus.emit,
    MAX31856_CONFIG_REG, u8]

/-! ## Sign of the result, scaling, and the argument of the square root -/

/-- C17: for every nominal resistance `n > 0` and resistance `R ≥ 0` with
`Z2 + Z3 * R ≥ 0`: the quadratic candidate is not negative exactly when
`R ≥ n`, and then it is the value returned; for `R < n` the polynomial is the
value returned and it is strictly negative; so the value returned is not
negative exactly when `R ≥ n`. -/
theorem temperature_sign_consistent (n R : ℝ) (hn : 0 < n) (hR : 0 ≤ R)
    (_hD : 0 ≤ RTD_A * RTD_A - 4 * RTD_B + 4 * RTD_B / n * R) :
    (0 ≤ temperature_quadratic Real.sqrt R n ↔ n ≤ R) ∧
      (n ≤ R → temperature_of_Rt Real.sqrt R n = temperature_quadratic Real.sqrt R n) ∧
      (R < n → temperature_of_Rt Real.sqrt R n = temperature_poly R n ∧
        temperature_poly R n < 0) ∧
      (0 ≤ temperature_of_Rt Real.sqrt R n ↔ n ≤ R) := by
  have hq := quadratic_nonneg_iff R n hn
  have h1 : n ≤ R → temperature_of_Rt Real.sqrt R n = temperature_quadratic Real.sqrt R n := by
    intro h
    simp only [temperature_of_Rt]
    rw [if_pos (hq.2 h)]
  have h2 : R < n → temperature_of_Rt Real.sqrt R n = temperature_poly R n ∧
      temperature_poly R n < 0 := by
    intro h
    refine ⟨?_, temperature_poly_neg R n hn hR h⟩
    simp only [temperature_of_Rt]
    rw [if_neg (fun hge => absurd (hq.1 hge) (not_le.2 h))]
  refine ⟨hq, h1, h2, ?_⟩
  constructor
  · intro h0
    by_contra hlt
    push_neg at hlt
    have := h2 hlt
    rw [this.1] at h0
    linarith [this.2]
  · intro h
    rw [h1 h]
    exact hq.2 h

theorem temperature_sign_consistent_witness :
    (0 : ℝ) < 100 ∧ (0 : ℝ) ≤ 80.31 ∧
      (0 : ℝ) ≤ RTD_A * RTD_A - 4 * RTD_B + 4 * RTD_B / 100 * 80.31 ∧
      (0 ≤ temperature_of_Rt Real.sqrt (80.31 : ℝ) 100 ↔ (100 : ℝ) ≤ 80.31) :=
  have hn : (0 : ℝ) < 100 := by norm_num
  have hR : (0 : ℝ) ≤ 80.31 := by norm_num
  have hD : (0 : ℝ) ≤ RTD_A * RTD_A - 4 * RTD_B + 4 * RTD_B / 100 * 80.31 := by
    unfold RTD_A RTD_B; norm_num
  ⟨hn, hR, hD, (temperature_sign_consistent 100 80.31 hn hR hD).2.2.2⟩

/-- Scaling the nominal resistance and the reference resistor by the same
factor leaves the quadratic candidate as it is. -/
theorem temperature_quadratic_scale (c : Nat) (n ref k : ℝ) (hn : n ≠ 0) (hk : k ≠ 0) :
    temperature_quadratic Real.sqrt (temperature_Rt c (k * ref)) (k * n) =
      temperature_quadratic Real.sqrt (temperature_Rt c ref) n := by
  rw [temperature_quadratic_real, temperature_quadratic_real]
  have h : (RTD_A * RTD_A - 4 * RTD_B + 4 * RTD_B / (k * n) * temperature_Rt c (k * ref) : ℝ) =
      RTD_A * RTD_A - 4 * RTD_B + 4 * RTD_B / n * temperature_Rt c ref := by
    simp only [temperature_Rt]
    field_simp
    ring
  rw [h]

/-- Scaling the nominal resistance and the reference resistor by the same
factor leaves the polynomial as it is. -/
theorem temperature_poly_scale (c : Nat) (n ref k : ℝ) (hn : n ≠ 0) (hk : k ≠ 0) :
    temperature_poly (temperature_Rt c (k * ref)) (k * n) =
      temperature_poly (temperature_Rt c ref) n := by
  rw [temperature_poly_real, temperature_poly_real]
  have h : temperature_Rt c (k * ref) / (k * n) * 100 = temperature_Rt c ref / n * 100 := by
    simp only [temperature_Rt]
    field_simp
    ring
  rw [h]

/-- C19: for every raw code `c`, nominal resistance `n > 0`, reference resistor
`ref > 0` and factor `k > 0`, the temperature computed from
`(c, k * n, k * ref)` is the one computed from `(c, n, ref)`; and the PT1000
constants (1000.0, 4300.0) give the temperature of the PT100 constants
(100.0, 430.0) for the same code. -/
theorem temperature_scale_invariant (c : Nat) (n ref k : ℝ) (hn : 0 < n) (_href : 0 < ref)
    (hk : 0 < k) :
    temperature_of_rtd Real.sqrt c (k * n) (k * ref) = temperature_of_rtd Real.sqrt c n ref ∧
      temperature_of_rtd Real.sqrt c (1000.0 : ℝ) 4300.0 =
        temperature_of_rtd Real.sqrt c (100.0 : ℝ) 430.0 := by
  have key : ∀ (n ref k : ℝ), n ≠ 0 → k ≠ 0 →
      temperature_of_rtd Real.sqrt c (k * n) (k * ref) =
        temperature_of_rtd Real.sqrt c n ref := by
    intro n ref k hn hk
    simp only [temperature_of_rtd, temperature_of_Rt]
    rw [temperature_quadratic_scale c n ref k hn hk, temperature_poly_scale c n ref k hn hk]
  refine ⟨key n ref k hn.ne' hk.ne', ?_⟩
  have h := key 100.0 430.0 10 (by norm_num) (by norm_num)
  rw [show (10 * 100.0 : ℝ) = 1000.0 by norm_num,
    show (10 * 430.0 : ℝ) = 4300.0 by norm_num] at h
  exact h

theorem temperature_scale_invariant_witness :
    (0 : ℝ) < 100 ∧ (0 : ℝ) < 430 ∧ (0 : ℝ) < 10 ∧
      temperature_of_rtd Real.sqrt 7621 (10 * 100 : ℝ) (10 * 430) =
        temperature_of_rtd Real.sqrt 7621 (100 : ℝ) 430 :=
  ⟨by norm_num, by norm_num, by norm_num,
    (temperature_scale_invariant 7621 100 430 10 (by norm_num) (by norm_num)
      (by norm_num)).1⟩

/-- For the PT100 constants the temperature increases strictly with the raw
code. -/
theorem temperature_of_rtd_pt100_lt (c₁ c₂ : Nat) (h : c₁ < c₂) (h2 : c₂ ≤ 32767) :
    temperature_of_rtd Real.sqrt c₁ (100.0 : ℝ) 430.0 <
      temperature_of_rtd Real.sqrt c₂ (100.0 : ℝ) 430.0 := by
  have hD := radicand_nonneg_43 c₂ h2 100.0 (by norm_num)
  have hR := temperature_Rt_lt c₁ c₂ h (430.0 : ℝ) (by norm_num)
  rw [show (4.3 * 100.0 : ℝ) = 430.0 by norm_num] at hD
  exact temperature_of_Rt_strictMono _ _ _ (by norm_num) hR.1 hR.2 hD

/-- The PT100 temperature of the raw code 7620, from the polynomial branch. -/
theorem temperature_of_rtd_7620 :
    -0.018 < temperature_of_rtd Real.sqrt 7620 (100.0 : ℝ) 430.0 ∧
      temperature_of_rtd Real.sqrt 7620 (100.0 : ℝ) 430.0 < -0.016 := by
  have hR : temperature_Rt 7620 (430.0 : ℝ) < 100.0 := by
    simp only [temperature_Rt]
    norm_num
  have hq : ¬ temperature_quadratic Real.sqrt (temperature_Rt 7620 (430.0 : ℝ)) 100.0 ≥ 0 :=
    fun hge => absurd ((quadratic_nonneg_iff _ _ (by norm_num)).1 hge) (not_le.2 hR)
  simp only [temperature_of_rtd, temperature_of_Rt]
  rw [if_neg hq, temperature_poly_real]
  simp only [temperature_Rt]
  constructor <;> norm_num

/-- The PT100 temperature of the raw code 7621, from the quadratic branch. -/
theorem temperature_of_rtd_7621 :
    0.017 < temperature_of_rtd Real.sqrt 7621 (100.0 : ℝ) 430.0 ∧
      temperature_of_rtd Real.sqrt 7621 (100.0 : ℝ) 430.0 < 0.019 := by
  have hb := quadratic_bounds (temperature_Rt 7621 (430.0 : ℝ)) 100.0 0.0175 0.0185
    (by unfold RTD_A RTD_B; norm_num)
    (by simp only [temperature_Rt]; unfold RTD_A RTD_B; norm_num)
    (by unfold RTD_A RTD_B; norm_num)
    (by simp only [temperature_Rt]; unfold RTD_A RTD_B; norm_num)
  have h0 : temperature_quadratic Real.sqrt (temperature_Rt 7621 (430.0 : ℝ)) 100.0 ≥ 0 := by
    have := hb.1
    have h' : (0 : ℝ) ≤ 0.0175 := by norm_num
    exact le_trans h' this
  simp only [temperature_of_rtd, temperature_of_Rt]
  rw [if_pos h0]
  constructor
  · have : (0.017 : ℝ) < 0.0175 := by norm_num
    exact lt_of_lt_of_le this hb.1
  · have : (0.0185 : ℝ) < 0.019 := by norm_num
    exact lt_of_le_of_lt hb.2 this

/-- C18: with nominal resistance 100.0 and reference resistor 430.0, for every
raw code `c` in 0..32767 the resistance is not 100.0 ohm and the temperature
computed from `c` is more than 0.01 away from 0.0; the codes 7620 and 7621 give
a temperature between -0.018 and -0.016 and between 0.017 and 0.019. -/
theorem temperature_pt100_never_zero (c : Nat) (hc : c ≤ 32767) :
    temperature_Rt c (430.0 : ℝ) ≠ 100.0 ∧
      0.01 < |temperature_of_rtd Real.sqrt c (100.0 : ℝ) 430.0 - 0.0| ∧
      (-0.018 < temperature_of_rtd Real.sqrt 7620 (100.0 : ℝ) 430.0 ∧
        temperature_of_rtd Real.sqrt 7620 (100.0 : ℝ) 430.0 < -0.016) ∧
      (0.017 < temperature_of_rtd Real.sqrt 7621 (100.0 : ℝ) 430.0 ∧
        temperature_of_rtd Real.sqrt 7621 (100.0 : ℝ) 430.0 < 0.019) := by
  have h20 := temperature_of_rtd_7620
  have h21 := temperature_of_rtd_7621
  refine ⟨?_, ?_, h20, h21⟩
  · intro h
    simp only [temperature_Rt] at h
    have h' : (c : ℝ) * 430 = 100 * 32768 := by
      field_simp at h
      linarith
    have h'' : c * 430 = 100 * 32768 := by exact_mod_cast h'
    omega
  · rw [show (0.0 : ℝ) = 0 by norm_num, sub_zero, lt_abs]
    rcases Nat.lt_or_ge c 7621 with hlt | hge
    · right
      have hle : temperature_of_rtd Real.sqrt c (100.0 : ℝ) 430.0 ≤
          temperature_of_rtd Real.sqrt 7620 (100.0 : ℝ) 430.0 := by
        rcases Nat.lt_or_ge c 7620 with h1 | h1
        · exact (temperature_of_rtd_pt100_lt c 7620 h1 (by norm_num)).le
        · have : c = 7620 := by omega
          rw [this]
      linarith [h20.2]
    · left
      have hle : temperature_of_rtd Real.sqrt 7621 (100.0 : ℝ) 430.0 ≤
          temperature_of_rtd Real.sqrt c (100.0 : ℝ) 430.0 := by
        rcases Nat.lt_or_ge 7621 c with h1 | h1
        · exact (temperature_of_rtd_pt100_lt 7621 c h1 hc).le
        · have : c = 7621 := by omega
          rw [this]
      linarith [h21.1]

theorem temperature_pt100_never_zero_witness :
    7620 ≤ 32767 ∧ 0.01 < |temperature_of_rtd Real.sqrt 7620 (100.0 : ℝ) 430.0 - 0.0| :=
  ⟨by decide, (temperature_pt100_never_zero 7620 (by decide)).2.1⟩

/-- The argument of the square root, in the ratio of the reference resistor to
the nominal resistance. -/
theorem radicand_ratio (c : Nat) (n ref : ℝ) :
    (RTD_A * RTD_A - 4 * RTD_B + 4 * RTD_B / n * temperature_Rt c ref : ℝ) =
      RTD_A * RTD_A - 4 * RTD_B + 4 * RTD_B * (ref / n * (c / 32768)) := by
  simp only [temperature_Rt]
  ring

/-- The argument of the square root is not negative as long as the ratio of
the reference resistor to the nominal resistance is at most `r` and `r` times
32767 / 32768 does not pass the threshold. -/
theorem radicand_nonneg_of_ratio_le (c : Nat) (hc : c ≤ 32767) (n ref r : ℝ) (hn : 0 < n)
    (href : 0 < ref) (hr : ref / n ≤ r)
    (hthr : 4 * RTD_B * (r * (32767 / 32768)) + (RTD_A * RTD_A - 4 * RTD_B) ≥ (0 : ℝ)) :
    (0 : ℝ) ≤ RTD_A * RTD_A - 4 * RTD_B + 4 * RTD_B / n * temperature_Rt c ref := by
  rw [radicand_ratio c n ref]
  have hc' : (c : ℝ) / 32768 ≤ 32767 / 32768 := by
    have : (c : ℝ) ≤ 32767 := by exact_mod_cast hc
    exact div_le_div_of_nonneg_right this (by norm_num)
  have hc0 : (0 : ℝ) ≤ (c : ℝ) / 32768 := by positivity
  have hpos : (0 : ℝ) < ref / n := div_pos href hn
  have hprod : ref / n * ((c : ℝ) / 32768) ≤ r * (32767 / 32768) :=
    mul_le_mul hr hc' hc0 (le_trans hpos.le hr)
  have hB : (4 * RTD_B : ℝ) < 0 := by linarith [RTD_B_neg]
  have := mul_le_mul_of_nonpos_left hprod hB.le
  linarith

/-- C20 (as amended): for every raw code `c` in 0..32767, nominal resistance
`n > 0` and reference resistor `ref > 0` with `ref / n ≤ 7.6`, the argument
`Z2 + Z3 * R` of the square root at `R = c / 32768 * ref` is not negative; and
for a ratio `ref / n` above `(A ^ 2 - 4 B) / (-4 B) * (32768 / 32767)` the raw
code 32767 makes it negative. -/
theorem temperature_sqrt_argument (n ref : ℝ) (hn : 0 < n) (href : 0 < ref) :
    (ref / n ≤ 7.6 → ∀ c : Nat, c ≤ 32767 →
        (0 : ℝ) ≤ RTD_A * RTD_A - 4 * RTD_B + 4 * RTD_B / n * temperature_Rt c ref) ∧
      ((RTD_A * RTD_A - 4 * RTD_B) / (-4 * RTD_B) * (32768 / 32767) < ref / n →
        ∃ c : Nat, c ≤ 32767 ∧
          RTD_A * RTD_A - 4 * RTD_B + 4 * RTD_B / n * temperature_Rt c ref < (0 : ℝ)) := by
  constructor
  · intro hr c hc
    exact radicand_nonneg_of_ratio_le c hc n ref 7.6 hn href hr
      (by unfold RTD_A RTD_B; norm_num)
  · intro hr
    refine ⟨32767, le_rfl, ?_⟩
    rw [radicand_ratio 32767 n ref]
    have hB : (0 : ℝ) < -4 * RTD_B := by linarith [RTD_B_neg]
    have h1 : (RTD_A * RTD_A - 4 * RTD_B : ℝ) * (32768 / 32767) < ref / n * (-4 * RTD_B) := by
      rw [div_mul_eq_mul_div, div_lt_iff₀ hB] at hr
      exact hr
    push_cast
    nlinarith

theorem temperature_sqrt_argument_witness :
    (0 : ℝ) < 100 ∧ (0 : ℝ) < 430 ∧ (430 / 100 : ℝ) ≤ 7.6 ∧ 32767 ≤ 32767 ∧
      (0 : ℝ) ≤ RTD_A * RTD_A - 4 * RTD_B + 4 * RTD_B / 100 * temperature_Rt 32767 430 :=
  have hn : (0 : ℝ) < 100 := by norm_num
  have href : (0 : ℝ) < 430 := by norm_num
  have hr : (430 / 100 : ℝ) ≤ 7.6 := by norm_num
  ⟨hn, href, hr, le_rfl, (temperature_sqrt_argument 100 430 hn href).1 hr 32767 le_rfl⟩

/-- C20 (as stated) fails just above the threshold: the ratio 761.26 / 100 is
above `(A ^ 2 - 4 B) / (-4 B)`, and yet no raw code in 0..32767 makes the
argument of the square root negative. -/
theorem temperature_sqrt_argument_ratio_7_6126 :
    (RTD_A * RTD_A - 4 * RTD_B) / (-4 * RTD_B) < (761.26 / 100 : ℝ) ∧
      ∀ c : Nat, c ≤ 32767 →
        (0 : ℝ) ≤ RTD_A * RTD_A - 4 * RTD_B + 4 * RTD_B / 100 * temperature_Rt c 761.26 := by
  constructor
  · unfold RTD_A RTD_B
    norm_num
  · intro c hc
    exact radicand_nonneg_of_ratio_le c hc 100 761.26 7.6126 (by norm_num) (by norm_num)
      (by norm_num) (by unfold RTD_A RTD_B; norm_num)

end Max31865
